import Mathlib

/-!
# DGL `Window` (dgl/src/Window.cpp): a state-passing embedding

Every `Window::PrivateData` object lives at an address; addresses are natural
numbers and the heap is a total map from addresses to records.  A member
function `PrivateData::f(args)` called on the object at address `i` in the
system state `s` becomes `f s i args`, which returns the new system state.
Calls into the native windowing library, into the `Application` object and
into widgets are recorded, in order, in the `log` of the system state.

Widget handlers are functions of the widget and the event (`Widgets`); the
events a call of `glfwPollEvents` delivers are given by a script.  Loops that
need not end (`exec`, `idle` along the chain of modal parents) take a bound and
return `none` when the bound is reached.  Allocation (`strdup`) succeeds.
-/

namespace DGL

/-! ## Data model -/

/-- The nested struct `PrivateData::Modal`; both pointers are nullable. -/
structure Modal where
  enabled : Bool
  parent : Option Nat
  childFocus : Option Nat
deriving DecidableEq

/-- The data members of `Window::PrivateData`.  `fSelf` and `fView` are the
identity of the object (its address) and are not stored; `fTitle` is a
nullable C string; `fWidgets` holds widget pointers. -/
structure PrivateData where
  fFirstInit : Bool
  fVisible : Bool
  fResizable : Bool
  fUsingEmbed : Bool
  fWidth : Nat
  fHeight : Nat
  fTitle : Option String
  fWidgets : List Nat
  fModal : Modal
deriving DecidableEq

/-- Payload `Widget::KeyboardEvent`. -/
structure KeyboardEvent where
  press : Bool
  key : Nat
  mod : Nat
  time : Nat
deriving DecidableEq

/-- Payload `Widget::MouseEvent`; `pos` is relative to the widget. -/
structure MouseEvent where
  button : Int
  press : Bool
  mod : Int
  time : Nat
  pos : Int × Int
deriving DecidableEq

/-- Payload `Widget::ScrollEvent`; the two float deltas are carried as bit
patterns and never computed with. -/
structure ScrollEvent where
  delta : Nat × Nat
  time : Nat
  pos : Int × Int
deriving DecidableEq

/-- Payload `Widget::MotionEvent`. -/
structure MotionEvent where
  time : Nat
  pos : Int × Int
deriving DecidableEq

/-- The calls the window code makes into its collaborators.  For the three
calls that take no window argument (`oneShown`, `oneHidden` and the report of
a failed `DISTRHO_SAFE_ASSERT`) the address is that of the calling window. -/
inductive Effect where
  | oneShown (i : Nat)
  | oneHidden (i : Nat)
  | safeAssert (i : Nat)
  | glfwShowWindow (i : Nat)
  | glfwHideWindow (i : Nat)
  | glfwFocusWindow (i : Nat)
  | glfwSetWindowSize (i : Nat) (width height : Nat)
  | glfwSetWindowTitle (i : Nat) (title : String)
  | glfwSwapBuffers (i : Nat)
  | glfwPollEvents
  | msleep (ms : Nat)
  | onKeyboard (widget : Nat) (ev : KeyboardEvent)
  | onMouse (widget : Nat) (ev : MouseEvent)
  | onScroll (widget : Nat) (ev : ScrollEvent)
  | onMotion (widget : Nat) (ev : MotionEvent)
  | widgetSetSize (widget : Nat) (width height : Nat)
  | widgetDisplay (widget : Nat) (width height : Nat)
  | onReshape (i : Nat) (width height : Nat)
  | onDisplayBefore (i : Nat)
  | onDisplayAfter (i : Nat)
  | onClose (i : Nat)
deriving DecidableEq

/-- The widgets, which live outside this file: what each widget pointer
answers to the getters the window calls and what each handler returns. -/
structure Widgets where
  isVisible : Nat → Bool
  getAbsoluteX : Nat → Int
  getAbsoluteY : Nat → Int
  needsFullViewport : Nat → Bool
  onKeyboard : Nat → KeyboardEvent → Bool
  onMouse : Nat → MouseEvent → Bool
  onScroll : Nat → ScrollEvent → Bool
  onMotion : Nat → MotionEvent → Bool

/-- The whole system: the heap of `PrivateData` objects, the two lists of
`Application::PrivateData` this file touches (`windows`, `idleCallbacks`, the
latter holding nullable pointers), and the log of outgoing calls. -/
@[ext] structure Sys where
  win : Nat → PrivateData
  windows : List Nat
  idleCallbacks : List (Option Nat)
  log : List Effect

/-- Overwrite the object at address `i`. -/
def Sys.setWin (s : Sys) (i : Nat) (d : PrivateData) : Sys :=
  { s with win := fun j => if j = i then d else s.win j }

/-- Append one outgoing call to the log. -/
def Sys.emit (s : Sys) (e : Effect) : Sys :=
  { s with log := s.log ++ [e] }

/-- Width of `uint` and `int` on the supported platforms. -/
def uintBits : Nat := 32

/-- The conversion `static_cast<uint>(int)`. -/
def toUint (x : Int) : Nat := (x % (2 ^ uintBits : Int)).toNat

/-! ## Member functions of `Window::PrivateData` -/

/-- `PrivateData::setSize(width, height, forced)`. -/
def setSize (s : Sys) (i : Nat) (width height : Nat) (forced : Bool) : Sys :=
  if width ≤ 1 ∨ height ≤ 1 then s
  else if (s.win i).fWidth = width ∧ (s.win i).fHeight = height ∧ forced = false then s
  else
    let s1 := s.setWin i { s.win i with fWidth := width, fHeight := height }
    (s1.emit (Effect.glfwSetWindowSize i width height)).emit (Effect.glfwSwapBuffers i)

/-- `PrivateData::exec_fini()`. -/
def exec_fini (s : Sys) (i : Nat) : Sys :=
  let s1 := s.setWin i { s.win i with fModal := { (s.win i).fModal with enabled := false } }
  match (s1.win i).fModal.parent with
  | some p => s1.setWin p { s1.win p with fModal := { (s1.win p).fModal with childFocus := none } }
  | none => s1

/-- `PrivateData::setVisible(yesNo)`. -/
def setVisible (s : Sys) (i : Nat) (yesNo : Bool) : Sys :=
  if (s.win i).fVisible = yesNo then s
  else if (s.win i).fUsingEmbed = true then s
  else
    let s1 := s.setWin i { s.win i with fVisible := yesNo }
    let s2 := if yesNo = true ∧ (s1.win i).fFirstInit = true
              then setSize s1 i (s1.win i).fWidth (s1.win i).fHeight true else s1
    let s3 := if yesNo = true then s2.emit (Effect.glfwShowWindow i)
              else s2.emit (Effect.glfwHideWindow i)
    if yesNo = true then
      if (s3.win i).fFirstInit = true then
        let s4 := s3.emit (Effect.oneShown i)
        s4.setWin i { s4.win i with fFirstInit := false }
      else s3
    else if (s3.win i).fModal.enabled = true then exec_fini s3 i
    else s3

/-- `PrivateData::close()`. -/
def close (s : Sys) (i : Nat) : Sys :=
  if (s.win i).fUsingEmbed = true then s
  else
    let s1 := setVisible s i false
    if (s1.win i).fFirstInit = false then
      let s2 := s1.emit (Effect.oneHidden i)
      s2.setWin i { s2.win i with fFirstInit := true }
    else s1

/-- `PrivateData::exec_init()`.  The guard is
`DISTRHO_SAFE_ASSERT_RETURN(fModal.parent != nullptr, setVisible(true))`: when
the condition fails the macro reports the assertion and executes
`return setVisible(true);`.  The member `fModal.parent` is read once; none of
the statements in between assigns it. -/
def exec_init (s : Sys) (i : Nat) : Sys :=
  match (s.win i).fModal.parent with
  | none => setVisible (s.emit (Effect.safeAssert i)) i true
  | some p =>
    let s1 := s.setWin i { s.win i with fModal := { (s.win i).fModal with enabled := true } }
    let s2 := s1.setWin p { s1.win p with fModal := { (s1.win p).fModal with childFocus := some i } }
    let s3 := setVisible s2 p true
    setVisible s3 i true

/-- `PrivateData::focus()`. -/
def focus (s : Sys) (i : Nat) : Sys :=
  s.emit (Effect.glfwFocusWindow i)

/-- `PrivateData::setResizable(yesNo)`. -/
def setResizable (s : Sys) (i : Nat) (yesNo : Bool) : Sys :=
  if (s.win i).fResizable = yesNo then s
  else if (s.win i).fUsingEmbed = true then s
  else
    let s1 := s.setWin i { s.win i with fResizable := yesNo }
    setSize s1 i (s1.win i).fWidth (s1.win i).fHeight true

/-- A `const char*` as `getTitle` returns it and `setTitle` receives it: null,
the static empty string `kFallback` of `getTitle`, the buffer `fTitle` of the
window at address `i`, or a string in memory that no window owns. -/
inductive CharPtr where
  | null
  | kFallback
  | title (i : Nat)
  | outside (t : String)
deriving DecidableEq

/-- The string behind a pointer in state `s`; `none` when the pointer is null
or its buffer has been freed, so that reading it is undefined.  The `fTitle`
of a record is `none` when the member is null and, inside `setTitle`, once
`std::free(fTitle)` has run. -/
def CharPtr.read (s : Sys) : CharPtr → Option String
  | .null => none
  | .kFallback => some ""
  | .title i => (s.win i).fTitle
  | .outside t => some t

/-- `PrivateData::getTitle()`: `fTitle != nullptr ? fTitle : kFallback`.  The
pointer returned is `fTitle` itself, not a copy. -/
def getTitle (s : Sys) (i : Nat) : CharPtr :=
  match (s.win i).fTitle with
  | some _ => CharPtr.title i
  | none => CharPtr.kFallback

/-- `PrivateData::setTitle(title)`.  The old buffer is freed first
(`if (fTitle != nullptr) std::free(fTitle);`), and only then do
`strdup(title)` and `glfwSetWindowTitle(fView, title)` read the argument, in
the state in which the old buffer is gone.  When the argument cannot be read
there (it is null, or it is the buffer just freed) the behaviour is undefined
and there is no state afterwards: `none`.  `strdup` itself succeeds. -/
def setTitle (s : Sys) (i : Nat) (title : CharPtr) : Option Sys :=
  let s1 := s.setWin i { s.win i with fTitle := none }
  match title.read s1 with
  | none => none
  | some t =>
    let s2 := s1.setWin i { s1.win i with fTitle := some t }
    some (s2.emit (Effect.glfwSetWindowTitle i t))

/-- `std::list<T>::remove(value)`: walk the list and erase each element that
compares equal to `value`. -/
def listRemove {α : Type} [DecidableEq α] (value : α) : List α → List α
  | [] => []
  | x :: xs => if x = value then listRemove value xs else x :: listRemove value xs

/-- `PrivateData::addWidget(widget)`: `fWidgets.push_back(widget)`. -/
def addWidget (s : Sys) (i : Nat) (widget : Nat) : Sys :=
  s.setWin i { s.win i with fWidgets := (s.win i).fWidgets ++ [widget] }

/-- `PrivateData::removeWidget(widget)`: `fWidgets.remove(widget)`. -/
def removeWidget (s : Sys) (i : Nat) (widget : Nat) : Sys :=
  s.setWin i { s.win i with fWidgets := listRemove widget (s.win i).fWidgets }

/-! ## The callbacks registered with the windowing library -/

/-- The loop `FOR_EACH_WIDGET_INV` with the body the four input callbacks
share: `if (widget->isVisible() && widget->handler(ev)) break;` (`return` in
the keyboard callback, where nothing follows the loop).  `widgets` is the
list in iteration order, `call w` the handler call made on `w` and
`accept w` what that call returns. -/
def offerLoop (visible : Nat → Bool) (call : Nat → Effect) (accept : Nat → Bool) :
    List Nat → Sys → Sys
  | [], s => s
  | w :: rest, s =>
    if visible w = true then
      let s1 := s.emit (call w)
      if accept w = true then s1 else offerLoop visible call accept rest s1
    else offerLoop visible call accept rest s

/-- The event `onPuglKeyboard` hands to every widget. -/
def keyboardEvent (press : Bool) (key mods time : Nat) : KeyboardEvent :=
  { press := press, key := key, mod := mods, time := time }

/-- The event `onPuglMouse` hands to `widget`. -/
def mouseEvent (W : Widgets) (button : Int) (press : Bool) (x y mods : Int) (time : Nat)
    (widget : Nat) : MouseEvent :=
  { button := button, press := press, mod := mods, time := time,
    pos := (x - W.getAbsoluteX widget, y - W.getAbsoluteY widget) }

/-- The event `onPuglScroll` hands to `widget`. -/
def scrollEvent (W : Widgets) (x y : Int) (dx dy time : Nat) (widget : Nat) : ScrollEvent :=
  { delta := (dx, dy), time := time,
    pos := (x - W.getAbsoluteX widget, y - W.getAbsoluteY widget) }

/-- The event `onPuglMotion` hands to `widget`. -/
def motionEvent (W : Widgets) (x y : Int) (time : Nat) (widget : Nat) : MotionEvent :=
  { time := time, pos := (x - W.getAbsoluteX widget, y - W.getAbsoluteY widget) }

/-- `PrivateData::onPuglKeyboard(press, key, mods)`; `time` is the reading of
`glfwGetTime()`. -/
def onPuglKeyboard (W : Widgets) (s : Sys) (i : Nat) (press : Bool) (key mods time : Nat) : Sys :=
  match (s.win i).fModal.childFocus with
  | some c => focus s c
  | none =>
    offerLoop W.isVisible (fun w => Effect.onKeyboard w (keyboardEvent press key mods time))
      (fun w => W.onKeyboard w (keyboardEvent press key mods time))
      (s.win i).fWidgets.reverse s

/-- `PrivateData::onPuglMouse(button, press, x, y, mods)`. -/
def onPuglMouse (W : Widgets) (s : Sys) (i : Nat) (button : Int) (press : Bool)
    (x y mods : Int) (time : Nat) : Sys :=
  match (s.win i).fModal.childFocus with
  | some c => focus s c
  | none =>
    offerLoop W.isVisible (fun w => Effect.onMouse w (mouseEvent W button press x y mods time w))
      (fun w => W.onMouse w (mouseEvent W button press x y mods time w))
      (s.win i).fWidgets.reverse s

/-- `PrivateData::onPuglScroll(x, y, dx, dy)`. -/
def onPuglScroll (W : Widgets) (s : Sys) (i : Nat) (x y : Int) (dx dy time : Nat) : Sys :=
  match (s.win i).fModal.childFocus with
  | some _ => s
  | none =>
    offerLoop W.isVisible (fun w => Effect.onScroll w (scrollEvent W x y dx dy time w))
      (fun w => W.onScroll w (scrollEvent W x y dx dy time w))
      (s.win i).fWidgets.reverse s

/-- `PrivateData::onPuglMotion(x, y)`. -/
def onPuglMotion (W : Widgets) (s : Sys) (i : Nat) (x y : Int) (time : Nat) : Sys :=
  match (s.win i).fModal.childFocus with
  | some _ => s
  | none =>
    offerLoop W.isVisible (fun w => Effect.onMotion w (motionEvent W x y time w))
      (fun w => W.onMotion w (motionEvent W x y time w))
      (s.win i).fWidgets.reverse s

/-- The loop `FOR_EACH_WIDGET` of `onPuglReshape`. -/
def reshapeWidgets (W : Widgets) (width height : Nat) : List Nat → Sys → Sys
  | [], s => s
  | w :: rest, s =>
    if W.needsFullViewport w = true
    then reshapeWidgets W width height rest (s.emit (Effect.widgetSetSize w width height))
    else reshapeWidgets W width height rest s

/-- `PrivateData::onPuglReshape(width, height)`. -/
def onPuglReshape (W : Widgets) (s : Sys) (i : Nat) (width height : Int) : Sys :=
  if width ≤ 1 ∧ height ≤ 1 then s
  else
    let s1 := s.setWin i { s.win i with fWidth := toUint width, fHeight := toUint height }
    let s2 := s1.emit (Effect.onReshape i (s1.win i).fWidth (s1.win i).fHeight)
    reshapeWidgets W (s2.win i).fWidth (s2.win i).fHeight (s2.win i).fWidgets s2

/-- The loop `FOR_EACH_WIDGET` of `onPuglDisplay`. -/
def displayWidgets (width height : Nat) : List Nat → Sys → Sys
  | [], s => s
  | w :: rest, s => displayWidgets width height rest (s.emit (Effect.widgetDisplay w width height))

/-- `PrivateData::onPuglDisplay()`; `Window::onDisplayAfter` swaps the buffers. -/
def onPuglDisplay (s : Sys) (i : Nat) : Sys :=
  let s1 := s.emit (Effect.onDisplayBefore i)
  let s2 := displayWidgets (s1.win i).fWidth (s1.win i).fHeight (s1.win i).fWidgets s1
  (s2.emit (Effect.onDisplayAfter i)).emit (Effect.glfwSwapBuffers i)

/-- `PrivateData::onPuglClose()`; `Window::onClose()` has an empty body. -/
def onPuglClose (s : Sys) (i : Nat) : Sys :=
  let s1 := if (s.win i).fModal.enabled = true then exec_fini s i else s
  let s2 := s1.emit (Effect.onClose i)
  let s3 := match (s2.win i).fModal.childFocus with
    | some c => s2.emit (Effect.onClose c)
    | none => s2
  close s3 i

/-- One callback invocation made by the windowing library, for the window at
address `i`, with the arguments of the `onPugl*` member it reaches. -/
inductive Event where
  | keyboard (i : Nat) (press : Bool) (key mods time : Nat)
  | mouse (i : Nat) (button : Int) (press : Bool) (x y mods : Int) (time : Nat)
  | scroll (i : Nat) (x y : Int) (dx dy time : Nat)
  | motion (i : Nat) (x y : Int) (time : Nat)
  | reshape (i : Nat) (width height : Int)
  | display (i : Nat)
  | close (i : Nat)
deriving DecidableEq

/-- The window an event is delivered to. -/
def Event.window : Event → Nat
  | .keyboard i _ _ _ _ => i
  | .mouse i _ _ _ _ _ _ => i
  | .scroll i _ _ _ _ _ => i
  | .motion i _ _ _ => i
  | .reshape i _ _ => i
  | .display i => i
  | .close i => i

/-- The static `on*Callback` trampolines: deliver one event. -/
def dispatch (W : Widgets) (s : Sys) : Event → Sys
  | .keyboard i press key mods time => onPuglKeyboard W s i press key mods time
  | .mouse i button press x y mods time => onPuglMouse W s i button press x y mods time
  | .scroll i x y dx dy time => onPuglScroll W s i x y dx dy time
  | .motion i x y time => onPuglMotion W s i x y time
  | .reshape i width height => onPuglReshape W s i width height
  | .display i => onPuglDisplay s i
  | .close i => onPuglClose s i

/-- What the environment delivers: one batch of events per call of
`glfwPollEvents`, in call order; no batch left means no event pending. -/
abbrev Script := List (List Event)

/-- `glfwPollEvents()`: deliver the pending batch of events. -/
def glfwPollEvents (W : Widgets) (s : Sys) (script : Script) : Sys × Script :=
  match script with
  | [] => (s.emit Effect.glfwPollEvents, [])
  | batch :: rest => (batch.foldl (dispatch W) (s.emit Effect.glfwPollEvents), rest)

/-- `PrivateData::idle()` (the non-Mac branch).  The recursion follows the
chain of modal parents; `depth` bounds it, and `none` means the bound was
reached before the call returned. -/
def idle (W : Widgets) : Nat → Sys → Nat → Script → Option (Sys × Script)
  | 0, _, _, _ => none
  | depth + 1, s, i, script =>
    let r := glfwPollEvents W s script
    let s2 := r.1.emit (Effect.glfwSwapBuffers i)
    if (s2.win i).fModal.enabled = true then
      match (s2.win i).fModal.parent with
      | some p => idle W depth s2 p r.2
      | none => some (s2, r.2)
    else some (s2, r.2)

/-- The wait loop of `exec`: `for (; fVisible && fModal.enabled;) { idle();
d_msleep(10); }`.  `fuel` bounds the number of iterations (and the depth of
each `idle`); `none` means the loop had not ended within the bound. -/
def execLoop (W : Widgets) : Nat → Sys → Nat → Script → Option (Sys × Script)
  | 0, s, i, script =>
    if (s.win i).fVisible = true ∧ (s.win i).fModal.enabled = true then none
    else some (s, script)
  | fuel + 1, s, i, script =>
    if (s.win i).fVisible = true ∧ (s.win i).fModal.enabled = true then
      match idle W (fuel + 1) s i script with
      | none => none
      | some r => execLoop W fuel (r.1.emit (Effect.msleep 10)) i r.2
    else some (s, script)

/-- `PrivateData::exec(lockWait)`. -/
def exec (W : Widgets) (fuel : Nat) (s : Sys) (i : Nat) (lockWait : Bool) (script : Script) :
    Option (Sys × Script) :=
  let s1 := exec_init s i
  if lockWait = true then
    match execLoop W fuel s1 i script with
    | none => none
    | some r => some (exec_fini r.1 i, r.2)
  else idle W fuel s1 i script

/-! ## Construction -/

/-- `PrivateData::init()`, reached with `fSelf` set to the window under
construction (never null).  `glfwInitOk` is what `glfwInit()` returns; on
failure the code calls `exit(1)` and there is no state afterwards.  The native
calls that create the window and register the callbacks leave no entry in the
log; what remains is the `push_back` on the application's list of windows. -/
def init (s : Sys) (i : Nat) (glfwInitOk : Bool) : Option Sys :=
  if glfwInitOk = true then some { s with windows := s.windows ++ [i] }
  else none

/-- The constructor `PrivateData(Application&, Window*)`, building the object
at address `i`. -/
def newWindow (s : Sys) (i : Nat) (glfwInitOk : Bool) : Option Sys :=
  init (s.setWin i
    { fFirstInit := true, fVisible := false, fResizable := true, fUsingEmbed := false,
      fWidth := 1, fHeight := 1, fTitle := none, fWidgets := [],
      fModal := { enabled := false, parent := none, childFocus := none } }) i glfwInitOk

/-- The constructor `PrivateData(Application&, Window*, Window& parent)`. -/
def newWindowWithParent (s : Sys) (i : Nat) (parent : Nat) (glfwInitOk : Bool) : Option Sys :=
  init (s.setWin i
    { fFirstInit := true, fVisible := false, fResizable := true, fUsingEmbed := false,
      fWidth := 1, fHeight := 1, fTitle := none, fWidgets := [],
      fModal := { enabled := false, parent := some parent, childFocus := none } }) i glfwInitOk

/-- The constructor `PrivateData(Application&, Window*, const intptr_t parentId)`. -/
def newWindowEmbed (s : Sys) (i : Nat) (parentId : Int) (glfwInitOk : Bool) : Option Sys :=
  let s1 := s.setWin i
    { fFirstInit := true, fVisible := decide (parentId ≠ 0), fResizable := decide (parentId = 0),
      fUsingEmbed := decide (parentId ≠ 0),
      fWidth := 1, fHeight := 1, fTitle := none, fWidgets := [],
      fModal := { enabled := false, parent := none, childFocus := none } }
  match init s1 i glfwInitOk with
  | none => none
  | some s2 =>
    if (s2.win i).fUsingEmbed = true then
      let s3 := (s2.emit (Effect.glfwShowWindow i)).emit (Effect.oneShown i)
      some (s3.setWin i { s3.win i with fFirstInit := false })
    else some s2

/-! ## The public class `Window` -/

namespace Window

/-- `Window::show()`. -/
def «show» (s : Sys) (i : Nat) : Sys := setVisible s i true

/-- `Window::hide()`. -/
def hide (s : Sys) (i : Nat) : Sys := setVisible s i false

/-- `Window::isVisible()`. -/
def isVisible (s : Sys) (i : Nat) : Bool := (s.win i).fVisible

/-- `Window::isResizable()`. -/
def isResizable (s : Sys) (i : Nat) : Bool := (s.win i).fResizable

/-- `Window::getWidth()`. -/
def getWidth (s : Sys) (i : Nat) : Nat := (s.win i).fWidth

/-- `Window::getHeight()`. -/
def getHeight (s : Sys) (i : Nat) : Nat := (s.win i).fHeight

/-- `Window::getSize()`. -/
def getSize (s : Sys) (i : Nat) : Nat × Nat := ((s.win i).fWidth, (s.win i).fHeight)

/-- `Window::setSize(width, height)`: `forced` takes its default, `false`. -/
def setSize (s : Sys) (i : Nat) (width height : Nat) : Sys := DGL.setSize s i width height false

/-- `Window::getTitle()`. -/
def getTitle (s : Sys) (i : Nat) : CharPtr := DGL.getTitle s i

/-- `Window::setTitle(title)`. -/
def setTitle (s : Sys) (i : Nat) (title : CharPtr) : Option Sys := DGL.setTitle s i title

/-- `Window::_addWidget(widget)`. -/
def _addWidget (s : Sys) (i : Nat) (widget : Nat) : Sys := addWidget s i widget

/-- `Window::_removeWidget(widget)`. -/
def _removeWidget (s : Sys) (i : Nat) (widget : Nat) : Sys := removeWidget s i widget

/-- `Window::addIdleCallback(callback)`; the guard is
`DISTRHO_SAFE_ASSERT_RETURN(callback != nullptr,)`. -/
def addIdleCallback (s : Sys) (i : Nat) (callback : Option Nat) : Sys :=
  match callback with
  | none => s.emit (Effect.safeAssert i)
  | some c => { s with idleCallbacks := s.idleCallbacks ++ [some c] }

/-- `Window::removeIdleCallback(callback)`, with the same guard. -/
def removeIdleCallback (s : Sys) (i : Nat) (callback : Option Nat) : Sys :=
  match callback with
  | none => s.emit (Effect.safeAssert i)
  | some c => { s with idleCallbacks := listRemove (some c) s.idleCallbacks }

end Window

/-! ## Runs of the system -/

/-- One call made from outside the file: a constructor, a member of `Window`,
a member of `PrivateData`, or a callback of the windowing library. -/
inductive Action where
  | newWindow (i : Nat) (glfwInitOk : Bool)
  | newWindowWithParent (i parent : Nat) (glfwInitOk : Bool)
  | newWindowEmbed (i : Nat) (parentId : Int) (glfwInitOk : Bool)
  | «show» (i : Nat)
  | hide (i : Nat)
  | close (i : Nat)
  | exec (i : Nat) (lockWait : Bool) (script : Script) (fuel : Nat)
  | focus (i : Nat)
  | setVisible (i : Nat) (yesNo : Bool)
  | setResizable (i : Nat) (yesNo : Bool)
  | setSize (i : Nat) (width height : Nat)
  | setTitle (i : Nat) (title : CharPtr)
  | _addWidget (i widget : Nat)
  | _removeWidget (i widget : Nat)
  | _idle (i : Nat) (script : Script) (fuel : Nat)
  | addIdleCallback (i : Nat) (callback : Option Nat)
  | removeIdleCallback (i : Nat) (callback : Option Nat)
  | exec_init (i : Nat)
  | exec_fini (i : Nat)
  | event (e : Event)

/-- Every event of the script is for a constructed window. -/
def scriptLive (s : Sys) (script : Script) : Bool :=
  script.all (fun batch => batch.all (fun e => decide (e.window ∈ s.windows)))

/-- Is the call well formed in state `s`?  A constructor builds at an address
not in use, a parent is a constructed window, a member is called on a
constructed window, events are delivered to constructed windows, and `uint`
arguments fit their type. -/
def Action.wellFormed (s : Sys) : Action → Bool
  | .newWindow i _ => decide (i ∉ s.windows)
  | .newWindowWithParent i parent _ => decide (i ∉ s.windows) && decide (parent ∈ s.windows)
  | .newWindowEmbed i _ _ => decide (i ∉ s.windows)
  | .«show» i => decide (i ∈ s.windows)
  | .hide i => decide (i ∈ s.windows)
  | .close i => decide (i ∈ s.windows)
  | .exec i _ script _ => decide (i ∈ s.windows) && scriptLive s script
  | .focus i => decide (i ∈ s.windows)
  | .setVisible i _ => decide (i ∈ s.windows)
  | .setResizable i _ => decide (i ∈ s.windows)
  | .setSize i width height =>
    decide (i ∈ s.windows) && decide (width < 2 ^ uintBits) && decide (height < 2 ^ uintBits)
  | .setTitle i _ => decide (i ∈ s.windows)
  | ._addWidget i _ => decide (i ∈ s.windows)
  | ._removeWidget i _ => decide (i ∈ s.windows)
  | ._idle i script _ => decide (i ∈ s.windows) && scriptLive s script
  | .addIdleCallback i _ => decide (i ∈ s.windows)
  | .removeIdleCallback i _ => decide (i ∈ s.windows)
  | .exec_init i => decide (i ∈ s.windows)
  | .exec_fini i => decide (i ∈ s.windows)
  | .event e => decide (e.window ∈ s.windows)

/-- The state a well-formed call leaves behind; `none` when the call does not
return (the process exits, or a loop outlives its bound) or its behaviour is
undefined. -/
def Action.apply (W : Widgets) (s : Sys) : Action → Option Sys
  | .newWindow i ok => DGL.newWindow s i ok
  | .newWindowWithParent i parent ok => DGL.newWindowWithParent s i parent ok
  | .newWindowEmbed i parentId ok => DGL.newWindowEmbed s i parentId ok
  | .«show» i => some (Window.«show» s i)
  | .hide i => some (Window.hide s i)
  | .close i => some (DGL.close s i)
  | .exec i lockWait script fuel => (DGL.exec W fuel s i lockWait script).map Prod.fst
  | .focus i => some (DGL.focus s i)
  | .setVisible i yesNo => some (DGL.setVisible s i yesNo)
  | .setResizable i yesNo => some (DGL.setResizable s i yesNo)
  | .setSize i width height => some (Window.setSize s i width height)
  | .setTitle i title => Window.setTitle s i title
  | ._addWidget i widget => some (Window._addWidget s i widget)
  | ._removeWidget i widget => some (Window._removeWidget s i widget)
  | ._idle i script fuel => (DGL.idle W fuel s i script).map Prod.fst
  | .addIdleCallback i callback => some (Window.addIdleCallback s i callback)
  | .removeIdleCallback i callback => some (Window.removeIdleCallback s i callback)
  | .exec_init i => some (DGL.exec_init s i)
  | .exec_fini i => some (DGL.exec_fini s i)
  | .event e => some (DGL.dispatch W s e)

/-- One step of a run: a well-formed call that returns. -/
def step (W : Widgets) (s : Sys) (a : Action) : Option Sys :=
  if a.wellFormed s = true then a.apply W s else none

/-- Run a sequence of calls, left to right. -/
def run (W : Widgets) : List Action → Sys → Option Sys
  | [], s => some s
  | a :: rest, s =>
    match step W s a with
    | none => none
    | some s1 => run W rest s1

/-- The state before any window exists; the memory no window occupies holds
zeroes. -/
def Sys.initial : Sys :=
  { win := fun _ =>
      { fFirstInit := false, fVisible := false, fResizable := false, fUsingEmbed := false,
        fWidth := 0, fHeight := 0, fTitle := none, fWidgets := [],
        fModal := { enabled := false, parent := none, childFocus := none } },
    windows := [], idleCallbacks := [], log := [] }

/-- The states the program can be in: those some run reaches from the state
before any window exists. -/
def Reachable (W : Widgets) (s : Sys) : Prop :=
  ∃ acts : List Action, run W acts Sys.initial = some s

/-! ## The dispatch order in the words of the specification -/

/-- The dispatch order as the specification words it.  `widgets` is the
widget list in attach order, `invoked` the widgets whose handler is called, in
call order.  The widgets on offer are the visible ones, last attached first;
`invoked` is the shortest prefix of that list that ends with an accepting
widget, or the whole list when no widget on offer accepts. -/
def DispatchOrder (visible accept : Nat → Bool) (widgets invoked : List Nat) : Prop :=
  invoked <+: (widgets.reverse.filter visible) ∧
  (∀ w ∈ invoked.dropLast, accept w = false) ∧
  (invoked.getLast?.map accept = some true ∨
    (invoked = widgets.reverse.filter visible ∧
      ∀ w ∈ widgets.reverse.filter visible, accept w = false))

instance (visible accept : Nat → Bool) (widgets invoked : List Nat) :
    Decidable (DispatchOrder visible accept widgets invoked) := by
  unfold DispatchOrder
  infer_instance

/-! ## Invariants of a window record -/

/-- What the constructors establish for the modal fields of a record and every
later call keeps: a window with a modal parent is not embedded, and a window
in modal mode is visible and has a modal parent. -/
def ModalInv (d : PrivateData) : Prop :=
  (d.fModal.parent ≠ none → d.fUsingEmbed = false) ∧
  (d.fModal.enabled = true → d.fVisible = true ∧ d.fModal.parent ≠ none)

instance (d : PrivateData) : Decidable (ModalInv d) := by
  unfold ModalInv
  infer_instance

/-- How a record `d` may differ from the same record `e` after a call that is
not a constructor: `fUsingEmbed` and `fModal.parent` are as before, an embedded
window has the visibility and resizability it had, and `ModalInv` is kept. -/
def Keeps (d e : PrivateData) : Prop :=
  e.fUsingEmbed = d.fUsingEmbed ∧ e.fModal.parent = d.fModal.parent ∧
  (d.fUsingEmbed = true → e.fVisible = d.fVisible ∧ e.fResizable = d.fResizable) ∧
  (ModalInv d → ModalInv e)

/-- The relation `Keeps` on every record of the heap, with the registry of
windows unchanged. -/
def SysKeeps (s t : Sys) : Prop :=
  t.windows = s.windows ∧ ∀ j, Keeps (s.win j) (t.win j)

/-! ## Notifications and modal consistency in the words of the specification -/

/-- Is the call one of the two notifications a window sends to the
application, `oneShown()` or `oneHidden()`? -/
def Effect.isNotification : Effect → Bool
  | .oneShown _ => true
  | .oneHidden _ => true
  | _ => false

/-- Number of `oneShown` notifications window `i` sent in `log`. -/
def shownCount (i : Nat) (log : List Effect) : Nat := log.count (Effect.oneShown i)

/-- Number of `oneHidden` notifications window `i` sent in `log`. -/
def hiddenCount (i : Nat) (log : List Effect) : Nat := log.count (Effect.oneHidden i)

/-- Replay of the notifications of window `i` in `log`, in order.  `shown`
says whether a `oneShown` of the window is still unmatched.  A `oneShown`
while one is unmatched, or a `oneHidden` while none is, comes out of turn and
the replay fails; otherwise the result says whether a `oneShown` is unmatched
at the end. -/
def replayShown (i : Nat) : Bool → List Effect → Option Bool
  | shown, [] => some shown
  | shown, e :: rest =>
    if e = Effect.oneShown i then
      (if shown = true then none else replayShown i true rest)
    else if e = Effect.oneHidden i then
      (if shown = true then replayShown i false rest else none)
    else replayShown i shown rest

/-- Between the states `s` and `t` window `j` kept its accounts: the log grew
by `sent`, and replaying `sent` from "shown exactly when `fFirstInit` is
false" succeeds and ends in the same relation to the new `fFirstInit`. -/
def Acct (j : Nat) (s t : Sys) : Prop :=
  ∃ sent : List Effect, t.log = s.log ++ sent ∧
    replayShown j (!(s.win j).fFirstInit) sent = some (!(t.win j).fFirstInit)

/-- Modal consistency as the specification words it: whenever a window's
`fModal.enabled` is true, its `fModal.parent` is not null and that parent's
`fModal.childFocus` is this window. -/
def ModalConsistent (s : Sys) : Prop :=
  ∀ i, (s.win i).fModal.enabled = true →
    ∃ p, (s.win i).fModal.parent = some p ∧ (s.win p).fModal.childFocus = some i

/-- No sibling of window `i` is in modal mode: a constructed window that is
modal-enabled and has the modal parent of `i` is `i` itself. -/
def NoModalSibling (s : Sys) (i : Nat) : Prop :=
  ∀ k ∈ s.windows, (s.win k).fModal.enabled = true → (s.win i).fModal.parent ≠ none →
    (s.win k).fModal.parent = (s.win i).fModal.parent → k = i

instance (s : Sys) (i : Nat) : Decidable (NoModalSibling s i) := by
  unfold NoModalSibling
  infer_instance

/-- The same over all addresses. -/
def Lone (s : Sys) (i : Nat) : Prop :=
  ∀ k, (s.win k).fModal.enabled = true → (s.win i).fModal.parent ≠ none →
    (s.win k).fModal.parent = (s.win i).fModal.parent → k = i

/-- The condition under which a call may start or end a modal loop: a call of
`exec_init`, `exec_fini` or `exec` on window `i` is made while no sibling of
`i` is in modal mode.  Every other call is free. -/
def Action.modalGuard (s : Sys) : Action → Bool
  | .exec_init i => decide (NoModalSibling s i)
  | .exec_fini i => decide (NoModalSibling s i)
  | .exec i _ _ _ => decide (NoModalSibling s i)
  | _ => true

/-- Only constructed windows have a modal parent, and the parent is a
constructed window. -/
def Registered (s : Sys) : Prop :=
  ∀ j p, (s.win j).fModal.parent = some p → j ∈ s.windows ∧ p ∈ s.windows

/-- What a call keeps of accounts and modal consistency when it starts no
modal loop and ends one only for a window that is in modal mode: every window
keeps its accounts, no record changes its modal parent, no window becomes
modal-enabled, and modal consistency survives. -/
def Orderly (s t : Sys) : Prop :=
  (∀ j, Acct j s t) ∧
  (∀ j, (t.win j).fModal.parent = (s.win j).fModal.parent) ∧
  (∀ k, (t.win k).fModal.enabled = true → (s.win k).fModal.enabled = true) ∧
  (ModalConsistent s → ModalConsistent t)

/-- Does the run from `s` make every call of `exec_init`, `exec_fini` and
`exec` while no sibling of the window called is in modal mode? -/
def guarded (W : Widgets) : List Action → Sys → Bool
  | [], _ => true
  | a :: rest, s =>
    a.modalGuard s &&
      (match step W s a with
       | some t => guarded W rest t
       | none => true)

/-! ## Sample states and widgets -/

/-- The record the first two constructors leave in a new window. -/
def plainRecord (parent : Option Nat) : PrivateData :=
  { fFirstInit := true, fVisible := false, fResizable := true, fUsingEmbed := false,
    fWidth := 1, fHeight := 1, fTitle := none, fWidgets := [],
    fModal := { enabled := false, parent := parent, childFocus := none } }

/-- One window at address 0, as `newWindow` leaves it. -/
def oneWindow : Sys :=
  { win := fun j => if j = 0 then plainRecord none else Sys.initial.win j,
    windows := [0], idleCallbacks := [], log := [] }

/-- Widgets that are all visible, sit at the origin and accept nothing. -/
def quietWidgets : Widgets :=
  { isVisible := fun _ => true, getAbsoluteX := fun _ => 0, getAbsoluteY := fun _ => 0,
    needsFullViewport := fun _ => false,
    onKeyboard := fun _ _ => false, onMouse := fun _ _ => false,
    onScroll := fun _ _ => false, onMotion := fun _ _ => false }

/-- Widgets of which 3 is hidden, 2 accepts every event and every other one
accepts none. -/
def pickyWidgets : Widgets :=
  { isVisible := fun w => decide (w ≠ 3), getAbsoluteX := fun _ => 0, getAbsoluteY := fun _ => 0,
    needsFullViewport := fun _ => false,
    onKeyboard := fun w _ => decide (w = 2), onMouse := fun w _ => decide (w = 2),
    onScroll := fun w _ => decide (w = 2), onMotion := fun w _ => decide (w = 2) }

/-- The window of `oneWindow` after widgets 1, 2, 3 and 4 were attached, in
that order. -/
def fourWidgets : Sys :=
  oneWindow.setWin 0 { plainRecord none with fWidgets := [1, 2, 3, 4] }

/-- The state `parentAndChild` while the child runs modally: both windows are
shown and the parent's `childFocus` points at the child. -/
def modalRunning : Sys :=
  { win := fun j =>
      if j = 1 then
        { plainRecord (some 0) with
          fFirstInit := false, fVisible := true,
          fModal := { enabled := true, parent := some 0, childFocus := none } }
      else if j = 0 then
        { plainRecord none with
          fFirstInit := false, fVisible := true, fWidgets := [1, 2],
          fModal := { enabled := false, parent := none, childFocus := some 1 } }
      else Sys.initial.win j,
    windows := [0, 1], idleCallbacks := [],
    log := [Effect.glfwShowWindow 0, Effect.oneShown 0, Effect.glfwShowWindow 1,
            Effect.oneShown 1] }

/-- One embedded window at address 0, as `newWindowEmbed` with the parent id
42 leaves it. -/
def embeddedWindow : Sys :=
  { win := fun j =>
      if j = 0 then
        { fFirstInit := false, fVisible := true, fResizable := false, fUsingEmbed := true,
          fWidth := 1, fHeight := 1, fTitle := none, fWidgets := [],
          fModal := { enabled := false, parent := none, childFocus := none } }
      else Sys.initial.win j,
    windows := [0], idleCallbacks := [],
    log := [Effect.glfwShowWindow 0, Effect.oneShown 0] }

/-- A sequence of calls that try to hide, resize and close the embedded
window of `embeddedWindow`. -/
def embeddedCalls : List Action :=
  [Action.hide 0, Action.setVisible 0 false, Action.setResizable 0 true, Action.close 0,
   Action.exec 0 true [[Event.close 0]] 2, Action.event (Event.close 0), Action.«show» 0]

/-- A run that builds a window at address 0, gives it the size 640 x 480 and
then delivers a reshape callback with width 0 and height 480. -/
def zeroWidthCalls : List Action :=
  [Action.newWindow 0 true, Action.setSize 0 640 480, Action.event (Event.reshape 0 0 480)]

/-- A run on the window of `oneWindow`: it is shown, hidden, shown again,
closed, put through `exec_init` and `exec_fini`, and closed by the close
callback. -/
def accountCalls : List Action :=
  [Action.«show» 0, Action.hide 0, Action.setVisible 0 true, Action.close 0,
   Action.exec_init 0, Action.exec_fini 0, Action.event (Event.close 0)]

/-- A run that builds a parent at address 0 with two child windows, at
addresses 1 and 2, and starts the modal loop of the first child and then of
the second. -/
def twoChildrenCalls : List Action :=
  [Action.newWindow 0 true, Action.newWindowWithParent 1 0 true,
   Action.newWindowWithParent 2 0 true, Action.exec_init 1, Action.exec_init 2]

/-- A run that builds a parent at address 0 with two child windows, at
addresses 1 and 2, and runs the children modally one after the other: the
first child starts its modal loop and is closed by its close callback, then
the second child starts its modal loop and the parent is hidden. -/
def siblingsInTurnCalls : List Action :=
  [Action.newWindow 0 true, Action.newWindowWithParent 1 0 true,
   Action.newWindowWithParent 2 0 true, Action.exec_init 1, Action.event (Event.close 1),
   Action.exec_init 2, Action.hide 0]

/-- The window of `oneWindow` after `setTitle` with the string "synth" held
outside the window. -/
def titledWindow : Sys :=
  { win := fun j => if j = 0 then { plainRecord none with fTitle := some "synth" }
                    else Sys.initial.win j,
    windows := [0], idleCallbacks := [],
    log := [Effect.glfwSetWindowTitle 0 "synth"] }

/-! ## Properties -/

/-! ### Reading the state after a primitive update -/

@[simp] theorem Sys.setWin_win_same (s : Sys) (i : Nat) (d : PrivateData) :
    (s.setWin i d).win i = d := by
  simp [Sys.setWin]

theorem Sys.setWin_win (s : Sys) (i j : Nat) (d : PrivateData) :
    (s.setWin i d).win j = if j = i then d else s.win j := rfl

@[simp] theorem Sys.setWin_win_ne (s : Sys) {i j : Nat} (d : PrivateData) (h : j ≠ i) :
    (s.setWin i d).win j = s.win j := by
  simp [Sys.setWin, h]

@[simp] theorem Sys.setWin_log (s : Sys) (i : Nat) (d : PrivateData) :
    (s.setWin i d).log = s.log := rfl

@[simp] theorem Sys.setWin_windows (s : Sys) (i : Nat) (d : PrivateData) :
    (s.setWin i d).windows = s.windows := rfl

@[simp] theorem Sys.setWin_idleCallbacks (s : Sys) (i : Nat) (d : PrivateData) :
    (s.setWin i d).idleCallbacks = s.idleCallbacks := rfl

@[simp] theorem Sys.emit_win (s : Sys) (e : Effect) : (s.emit e).win = s.win := rfl

@[simp] theorem Sys.emit_log (s : Sys) (e : Effect) : (s.emit e).log = s.log ++ [e] := rfl

@[simp] theorem Sys.emit_windows (s : Sys) (e : Effect) : (s.emit e).windows = s.windows := rfl

@[simp] theorem Sys.emit_idleCallbacks (s : Sys) (e : Effect) :
    (s.emit e).idleCallbacks = s.idleCallbacks := rfl

theorem Sys.setWin_self (s : Sys) (i : Nat) : s.setWin i (s.win i) = s := by
  ext j
  · by_cases h : j = i
    · subst h; simp
    · simp [h]
  all_goals rfl

/-! ### Visibility -/

theorem setVisible_same (s : Sys) (i : Nat) (v : Bool) (h : (s.win i).fVisible = v) :
    setVisible s i v = s := by
  simp [setVisible, h]

theorem setSize_fVisible (s : Sys) (i j : Nat) (w h : Nat) (f : Bool) :
    ((setSize s i w h f).win j).fVisible = (s.win j).fVisible := by
  unfold setSize
  split_ifs <;> simp [Sys.setWin_win]
  split_ifs with hj <;> simp [hj]

theorem exec_fini_fVisible (s : Sys) (i j : Nat) :
    ((exec_fini s i).win j).fVisible = (s.win j).fVisible := by
  unfold exec_fini
  simp only [Sys.setWin_win_same]
  split <;> simp [Sys.setWin_win] <;> split_ifs <;> simp_all

theorem setVisible_fVisible (s : Sys) (i : Nat) (v : Bool)
    (hEmbed : (s.win i).fUsingEmbed = false) :
    ((setVisible s i v).win i).fVisible = v := by
  unfold setVisible
  dsimp only
  split_ifs <;> simp_all [setSize_fVisible, exec_fini_fVisible]

theorem newWindow_initial : newWindow Sys.initial 0 true = some oneWindow := rfl

/-- C3: on a window that is not embedded, `isVisible()` returns `v` after
`setVisible(v)`; so `show()` leaves the window visible and `hide()` leaves it
not visible.  When the window is already in state `v`, `setVisible(v)` returns
the state it was given, and therefore `setVisible(v)` twice is `setVisible(v)`
once. -/
theorem C3_setVisible_then_isVisible (s : Sys) (i : Nat) (v : Bool)
    (hEmbed : (s.win i).fUsingEmbed = false) :
    Window.isVisible (setVisible s i v) i = v ∧
    Window.isVisible (Window.«show» s i) i = true ∧
    Window.isVisible (Window.hide s i) i = false ∧
    (Window.isVisible s i = v → setVisible s i v = s) ∧
    setVisible (setVisible s i v) i v = setVisible s i v := by
  refine ⟨setVisible_fVisible s i v hEmbed, setVisible_fVisible s i true hEmbed,
    setVisible_fVisible s i false hEmbed, fun h => setVisible_same s i v h, ?_⟩
  exact setVisible_same _ i v (setVisible_fVisible s i v hEmbed)

theorem C3_setVisible_then_isVisible_witness :
    (oneWindow.win 0).fUsingEmbed = false ∧
    Window.isVisible (setVisible oneWindow 0 true) 0 = true ∧
    Window.isVisible (Window.«show» oneWindow 0) 0 = true ∧
    Window.isVisible (Window.hide oneWindow 0) 0 = false ∧
    (Window.isVisible oneWindow 0 = true → setVisible oneWindow 0 true = oneWindow) ∧
    setVisible (setVisible oneWindow 0 true) 0 true = setVisible oneWindow 0 true :=
  ⟨rfl, C3_setVisible_then_isVisible oneWindow 0 true rfl⟩

/-! ### Size -/

theorem setSize_win (s : Sys) (i j : Nat) (w h : Nat) (f : Bool) :
    (setSize s i w h f).win j =
      if j = i ∧ 1 < w ∧ 1 < h then { s.win i with fWidth := w, fHeight := h } else s.win j := by
  unfold setSize
  by_cases hj : j = i
  · subst hj
    by_cases h1 : w ≤ 1 ∨ h ≤ 1
    · have h2 : ¬ (j = j ∧ 1 < w ∧ 1 < h) := by omega
      rw [if_pos h1, if_neg h2]
    · have h2 : j = j ∧ 1 < w ∧ 1 < h := by omega
      rw [if_neg h1, if_pos h2]
      by_cases h3 : (s.win j).fWidth = w ∧ (s.win j).fHeight = h ∧ f = false
      · rw [if_pos h3]
        obtain ⟨ha, hb, _⟩ := h3
        subst ha
        subst hb
        rfl
      · rw [if_neg h3]
        simp
  · split_ifs <;> simp_all [Sys.setWin_win]

theorem setSize_windows (s : Sys) (i : Nat) (w h : Nat) (f : Bool) :
    (setSize s i w h f).windows = s.windows := by
  unfold setSize
  split_ifs <;> rfl

theorem setSize_idleCallbacks (s : Sys) (i : Nat) (w h : Nat) (f : Bool) :
    (setSize s i w h f).idleCallbacks = s.idleCallbacks := by
  unfold setSize
  split_ifs <;> rfl

theorem setSize_invalid (s : Sys) (i : Nat) (w h : Nat) (f : Bool) (hbad : w ≤ 1 ∨ h ≤ 1) :
    setSize s i w h f = s := by
  simp [setSize, hbad]

/-- C4: after `Window::setSize(w, h)` with `w > 1` and `h > 1` the getters
return `w` and `h`; with `w <= 1` or `h <= 1` the call returns the state it
was given.  In both cases the record of the window differs from the old one
in `fWidth` and `fHeight` at most, every other window keeps its record, and
the lists of the application are untouched. -/
theorem C4_setSize_then_getSize (s : Sys) (i : Nat) (w h : Nat) :
    (1 < w ∧ 1 < h →
      Window.getWidth (Window.setSize s i w h) i = w ∧
      Window.getHeight (Window.setSize s i w h) i = h ∧
      Window.getSize (Window.setSize s i w h) i = (w, h)) ∧
    (w ≤ 1 ∨ h ≤ 1 → Window.setSize s i w h = s) ∧
    (Window.setSize s i w h).win i =
      { s.win i with fWidth := Window.getWidth (Window.setSize s i w h) i,
                     fHeight := Window.getHeight (Window.setSize s i w h) i } ∧
    (∀ j, j ≠ i → (Window.setSize s i w h).win j = s.win j) ∧
    (Window.setSize s i w h).windows = s.windows ∧
    (Window.setSize s i w h).idleCallbacks = s.idleCallbacks := by
  refine ⟨?_, fun hbad => setSize_invalid s i w h false hbad, ?_, ?_,
    setSize_windows s i w h false, setSize_idleCallbacks s i w h false⟩
  · intro hok
    simp [Window.getWidth, Window.getHeight, Window.getSize, Window.setSize, setSize_win, hok]
  · simp only [Window.getWidth, Window.getHeight, Window.setSize, setSize_win]
    split_ifs <;> rfl
  · intro j hj
    simp [Window.setSize, setSize_win, hj]

theorem C4_setSize_then_getSize_witness :
    (Window.getWidth (Window.setSize oneWindow 0 640 480) 0 = 640 ∧
      Window.getHeight (Window.setSize oneWindow 0 640 480) 0 = 480 ∧
      Window.getSize (Window.setSize oneWindow 0 640 480) 0 = (640, 480)) ∧
    Window.setSize oneWindow 0 640 1 = oneWindow :=
  ⟨(C4_setSize_then_getSize oneWindow 0 640 480).1 (by decide),
   (C4_setSize_then_getSize oneWindow 0 640 1).2.1 (by decide)⟩

/-! ### Title -/

theorem newWindow_spec (s s1 : Sys) (i : Nat) (ok : Bool) (h : newWindow s i ok = some s1) :
    s1.win i = plainRecord none ∧ (∀ j, j ≠ i → s1.win j = s.win j) ∧
    s1.windows = s.windows ++ [i] ∧ s1.idleCallbacks = s.idleCallbacks ∧ s1.log = s.log := by
  cases ok
  · simp [newWindow, init] at h
  · simp only [newWindow, init, if_true, Option.some.injEq] at h
    subst h
    refine ⟨by simp [plainRecord], fun j hj => by simp [Sys.setWin, hj], rfl, rfl, rfl⟩

theorem newWindowWithParent_spec (s s1 : Sys) (i parent : Nat) (ok : Bool)
    (h : newWindowWithParent s i parent ok = some s1) :
    s1.win i = plainRecord (some parent) ∧ (∀ j, j ≠ i → s1.win j = s.win j) ∧
    s1.windows = s.windows ++ [i] ∧ s1.idleCallbacks = s.idleCallbacks ∧ s1.log = s.log := by
  cases ok
  · simp [newWindowWithParent, init] at h
  · simp only [newWindowWithParent, init, if_true, Option.some.injEq] at h
    subst h
    refine ⟨by simp [plainRecord], fun j hj => by simp [Sys.setWin, hj], rfl, rfl, rfl⟩

theorem newWindowEmbed_spec (s s1 : Sys) (i : Nat) (parentId : Int) (ok : Bool)
    (h : newWindowEmbed s i parentId ok = some s1) :
    s1.win i =
      { fFirstInit := decide (parentId = 0), fVisible := decide (parentId ≠ 0),
        fResizable := decide (parentId = 0), fUsingEmbed := decide (parentId ≠ 0),
        fWidth := 1, fHeight := 1, fTitle := none, fWidgets := [],
        fModal := { enabled := false, parent := none, childFocus := none } } ∧
    (∀ j, j ≠ i → s1.win j = s.win j) ∧ s1.windows = s.windows ++ [i] ∧
    s1.idleCallbacks = s.idleCallbacks := by
  cases ok
  · simp [newWindowEmbed, init] at h
  · by_cases hp : parentId = 0
    · simp only [newWindowEmbed, init, if_true, hp] at h
      simp only [Sys.setWin_win_same, ne_eq, not_true_eq_false, decide_False, Bool.false_eq_true,
        if_false, Option.some.injEq] at h
      subst h
      refine ⟨by simp [hp], fun j hj => by simp [Sys.setWin, hj], rfl, rfl⟩
    · simp only [newWindowEmbed, init, if_true] at h
      simp only [Sys.setWin_win_same, ne_eq, hp, not_false_eq_true, decide_True,
        if_true, Option.some.injEq] at h
      subst h
      refine ⟨by simp [hp, Sys.setWin, Sys.emit], fun j hj => by simp [Sys.setWin, Sys.emit, hj],
        rfl, rfl⟩

theorem getTitle_of_unset (s : Sys) (i : Nat) (h : (s.win i).fTitle = none) :
    Window.getTitle s i = CharPtr.kFallback ∧ (Window.getTitle s i).read s = some "" := by
  simp [Window.getTitle, getTitle, h, CharPtr.read]

theorem getTitle_ne_null (s : Sys) (i : Nat) : Window.getTitle s i ≠ CharPtr.null := by
  unfold Window.getTitle getTitle
  split <;> simp

theorem getTitle_read (s : Sys) (i : Nat) (t : String) (h : (s.win i).fTitle = some t) :
    Window.getTitle s i = CharPtr.title i ∧ (Window.getTitle s i).read s = some t := by
  simp [Window.getTitle, getTitle, h, CharPtr.read]

theorem setTitle_of_readable (s : Sys) (i : Nat) (title : CharPtr) (t : String)
    (hread : title.read s = some t) (hown : title ≠ CharPtr.title i) :
    ∃ s1, Window.setTitle s i title = some s1 ∧ (s1.win i).fTitle = some t ∧
      (Window.getTitle s1 i).read s1 = some t := by
  have h1 : title.read (s.setWin i { s.win i with fTitle := none }) = some t := by
    cases title with
    | null => simp [CharPtr.read] at hread
    | kFallback => exact hread
    | title j =>
      have hj : j ≠ i := fun e => hown (by rw [e])
      simpa [CharPtr.read, hj] using hread
    | outside u => exact hread
  unfold Window.setTitle setTitle
  dsimp only
  rw [h1]
  exact ⟨_, rfl, by simp, by simp [Window.getTitle, getTitle, CharPtr.read]⟩

theorem setTitle_of_own_title (s : Sys) (i : Nat) :
    Window.setTitle s i (CharPtr.title i) = none := by
  simp [Window.setTitle, setTitle, CharPtr.read]

theorem setTitle_oneWindow :
    Window.setTitle oneWindow 0 (CharPtr.outside "synth") = some titledWindow := by
  simp only [Window.setTitle, setTitle, CharPtr.read, Option.some.injEq]
  ext j
  · by_cases hj : j = 0
    · subst hj
      simp [Sys.setWin, Sys.emit, titledWindow, oneWindow]
    · simp [Sys.setWin, Sys.emit, titledWindow, oneWindow, hj]
  all_goals rfl

/-- C5, the code at the failing input: the window of `oneWindow` is given the
title "synth"; `getTitle()` then returns the window's own buffer `fTitle`,
which reads "synth".  Passing that pointer back, `setTitle(getTitle())`, frees
the buffer before `strdup` and `glfwSetWindowTitle` read it: the call has no
defined result, so no title equal to "synth" comes back.  On the window
without a title `getTitle()` returns the static empty string, which is not
null. -/
theorem C5_setTitle_of_own_title_is_undefined :
    Window.getTitle oneWindow 0 = CharPtr.kFallback ∧
    (Window.getTitle oneWindow 0).read oneWindow = some "" ∧
    Window.setTitle oneWindow 0 (CharPtr.outside "synth") = some titledWindow ∧
    Window.getTitle titledWindow 0 = CharPtr.title 0 ∧
    (Window.getTitle titledWindow 0).read titledWindow = some "synth" ∧
    Window.setTitle titledWindow 0 (Window.getTitle titledWindow 0) = none := by
  refine ⟨rfl, rfl, setTitle_oneWindow, rfl, rfl, ?_⟩
  rw [show Window.getTitle titledWindow 0 = CharPtr.title 0 from rfl]
  exact setTitle_of_own_title titledWindow 0

/-! ### Lists of pointers -/

theorem listRemove_eq_filter {α : Type} [DecidableEq α] (v : α) (L : List α) :
    listRemove v L = L.filter (fun x => decide (x ≠ v)) := by
  induction L with
  | nil => rfl
  | cons x xs ih =>
    by_cases h : x = v
    · simp [listRemove, h, ih]
    · simp [listRemove, h, ih]

theorem listRemove_not_mem {α : Type} [DecidableEq α] (v : α) (L : List α) :
    v ∉ listRemove v L := by
  simp [listRemove_eq_filter]

theorem listRemove_of_not_mem {α : Type} [DecidableEq α] (v : α) (L : List α) (h : v ∉ L) :
    listRemove v L = L := by
  rw [listRemove_eq_filter, List.filter_eq_self]
  intro x hx
  have : x ≠ v := fun e => h (e ▸ hx)
  simpa using this

theorem listRemove_append_self {α : Type} [DecidableEq α] (v : α) (L : List α) (h : v ∉ L) :
    listRemove v (L ++ [v]) = L := by
  have h1 : listRemove v L = L := listRemove_of_not_mem v L h
  rw [listRemove_eq_filter] at h1 ⊢
  simp only [List.filter_append, h1]
  simp

theorem listRemove_count {α : Type} [DecidableEq α] (v x : α) (L : List α) (h : x ≠ v) :
    (listRemove v L).count x = L.count x := by
  induction L with
  | nil => rfl
  | cons y ys ih =>
    by_cases hy : y = v
    · have hxy : y ≠ x := fun e => h (e ▸ hy)
      simp [listRemove, hy, ih, List.count_cons]
      intro e
      exact absurd e.symm h
    · simp [listRemove, hy, ih, List.count_cons]

theorem listRemove_sublist {α : Type} [DecidableEq α] (v : α) (L : List α) :
    List.Sublist (listRemove v L) L := by
  rw [listRemove_eq_filter]
  exact List.filter_sublist L

/-- C6: `_addWidget(w)` turns the widget list `L` into `L ++ [w]`, so that `w`
is the first entry the reverse iteration of the input callbacks meets, and
changes nothing else.  `_removeWidget(w)` leaves `L` without any occurrence of
`w`: the entries different from `w`, in their order and number; it returns the
state it was given when `w` is not in `L`.  For `w` not in `L`,
`_removeWidget(w)` after `_addWidget(w)` gives back the original state. -/
theorem C6_widget_attach_detach (s : Sys) (i w : Nat) :
    (Window._addWidget s i w).win i =
      { s.win i with fWidgets := (s.win i).fWidgets ++ [w] } ∧
    ((Window._addWidget s i w).win i).fWidgets.reverse.head? = some w ∧
    (Window._removeWidget s i w).win i =
      { s.win i with fWidgets := (s.win i).fWidgets.filter (fun x => decide (x ≠ w)) } ∧
    w ∉ ((Window._removeWidget s i w).win i).fWidgets ∧
    List.Sublist ((Window._removeWidget s i w).win i).fWidgets (s.win i).fWidgets ∧
    (∀ x, x ≠ w →
      ((Window._removeWidget s i w).win i).fWidgets.count x = (s.win i).fWidgets.count x) ∧
    (w ∉ (s.win i).fWidgets → Window._removeWidget s i w = s) ∧
    (w ∉ (s.win i).fWidgets → Window._removeWidget (Window._addWidget s i w) i w = s) := by
  refine ⟨by simp [Window._addWidget, addWidget], by simp [Window._addWidget, addWidget],
    by simp [Window._removeWidget, removeWidget, listRemove_eq_filter],
    by simpa [Window._removeWidget, removeWidget] using listRemove_not_mem w _,
    by simpa [Window._removeWidget, removeWidget] using listRemove_sublist w _,
    fun x hx => by simpa [Window._removeWidget, removeWidget] using listRemove_count w x _ hx,
    ?_, ?_⟩
  · intro h
    simp only [Window._removeWidget, removeWidget, listRemove_of_not_mem w _ h]
    exact Sys.setWin_self s i
  · intro h
    simp only [Window._removeWidget, removeWidget, Window._addWidget, addWidget,
      Sys.setWin_win_same, listRemove_append_self w _ h]
    ext j
    · by_cases hj : j = i
      · subst hj; simp [Sys.setWin]
      · simp [Sys.setWin, hj]
    all_goals rfl

theorem C6_widget_attach_detach_witness :
    Window._removeWidget oneWindow 0 7 = oneWindow ∧
    Window._removeWidget (Window._addWidget oneWindow 0 7) 0 7 = oneWindow :=
  ⟨(C6_widget_attach_detach oneWindow 0 7).2.2.2.2.2.2.1 (by decide),
   (C6_widget_attach_detach oneWindow 0 7).2.2.2.2.2.2.2 (by decide)⟩

/-- C8: `addIdleCallback(nullptr)` and `removeIdleCallback(nullptr)` leave the
list of idle callbacks as it was.  For a callback `c` that is not null,
`addIdleCallback(c)` appends `c` to the list and `removeIdleCallback(c)` keeps
exactly the entries that differ from `c`, in their order.  Hence neither call,
whatever its argument, puts a null entry into a list that had none. -/
theorem C8_idle_callbacks (s : Sys) (i c : Nat) :
    (Window.addIdleCallback s i none).idleCallbacks = s.idleCallbacks ∧
    (Window.removeIdleCallback s i none).idleCallbacks = s.idleCallbacks ∧
    (Window.addIdleCallback s i (some c)).idleCallbacks = s.idleCallbacks ++ [some c] ∧
    (Window.removeIdleCallback s i (some c)).idleCallbacks =
      s.idleCallbacks.filter (fun x => decide (x ≠ some c)) ∧
    (∀ cb, none ∉ s.idleCallbacks →
      none ∉ (Window.addIdleCallback s i cb).idleCallbacks ∧
      none ∉ (Window.removeIdleCallback s i cb).idleCallbacks) := by
  refine ⟨rfl, rfl, rfl, by simp [Window.removeIdleCallback, listRemove_eq_filter], ?_⟩
  intro cb h
  cases cb with
  | none => exact ⟨h, h⟩
  | some d =>
    refine ⟨by simpa [Window.addIdleCallback] using h, ?_⟩
    simp only [Window.removeIdleCallback, listRemove_eq_filter]
    intro hm
    exact h (List.mem_of_mem_filter hm)

theorem C8_idle_callbacks_witness :
    none ∉ (Window.addIdleCallback oneWindow 0 none).idleCallbacks ∧
    none ∉ (Window.removeIdleCallback oneWindow 0 none).idleCallbacks :=
  (C8_idle_callbacks oneWindow 0 5).2.2.2.2 none (by decide)

/-! ### Input dispatch -/

theorem offerLoop_spec (visible : Nat → Bool) (call : Nat → Effect) (accept : Nat → Bool)
    (l : List Nat) :
    ∀ s : Sys, ∃ invoked : List Nat,
      offerLoop visible call accept l s = { s with log := s.log ++ invoked.map call } ∧
      invoked <+: l.filter visible ∧
      (∀ w ∈ invoked.dropLast, accept w = false) ∧
      (invoked.getLast?.map accept = some true ∨
        (invoked = l.filter visible ∧ ∀ w ∈ l.filter visible, accept w = false)) := by
  induction l with
  | nil =>
    intro s
    exact ⟨[], by simp [offerLoop], by simp, by simp, Or.inr (by simp)⟩
  | cons w rest ih =>
    intro s
    by_cases hv : visible w = true
    · by_cases ha : accept w = true
      · refine ⟨[w], by simp [offerLoop, hv, ha, Sys.emit], ?_, by simp, Or.inl (by simp [ha])⟩
        simp [List.filter_cons, hv]
      · obtain ⟨inv, hrun, hpre, hrej, hlast⟩ := ih (s.emit (call w))
        have ha0 : accept w = false := by simpa using ha
        refine ⟨w :: inv, ?_, ?_, ?_, ?_⟩
        · simp only [offerLoop, hv, ha, if_true, if_false, hrun]
          simp [Sys.emit]
        · simp only [List.filter_cons, hv, if_true]
          exact (List.prefix_cons_inj w).mpr hpre
        · cases inv with
          | nil => simp
          | cons a tl =>
            intro x hx
            rw [List.dropLast_cons₂] at hx
            rcases List.mem_cons.mp hx with rfl | hx
            · exact ha0
            · exact hrej x hx
        · rcases hlast with hl | ⟨heq, hnone⟩
          · left
            cases inv with
            | nil => simp at hl
            | cons a tl => simpa [List.getLast?_cons_cons] using hl
          · right
            refine ⟨by simp [List.filter_cons, hv, heq], ?_⟩
            intro x hx
            simp only [List.filter_cons, hv, if_true] at hx
            rcases List.mem_cons.mp hx with rfl | hx
            · exact ha0
            · exact hnone x hx
    · obtain ⟨inv, hrun, hpre, hrej, hlast⟩ := ih s
      refine ⟨inv, by simp [offerLoop, hv, hrun], ?_, hrej, ?_⟩
      · simpa [List.filter_cons, hv] using hpre
      · simpa [List.filter_cons, hv] using hlast

theorem offerLoop_dispatchOrder (visible : Nat → Bool) (call : Nat → Effect)
    (accept : Nat → Bool) (widgets : List Nat) (s : Sys) :
    ∃ invoked : List Nat,
      offerLoop visible call accept widgets.reverse s =
        { s with log := s.log ++ invoked.map call } ∧
      DispatchOrder visible accept widgets invoked ∧
      (∀ w ∈ invoked, visible w = true) ∧
      (∀ top, (widgets.reverse.filter visible).head? = some top → invoked.head? = some top) := by
  obtain ⟨inv, hrun, hpre, hrej, hlast⟩ := offerLoop_spec visible call accept widgets.reverse s
  refine ⟨inv, hrun, ⟨hpre, hrej, hlast⟩, ?_, ?_⟩
  · intro w hw
    have hmem : w ∈ widgets.reverse.filter visible := hpre.subset hw
    exact (List.mem_filter.mp hmem).2
  · intro top htop
    obtain ⟨tl, htl⟩ := hpre
    cases inv with
    | nil =>
      rcases hlast with hl | ⟨heq, _⟩
      · simp at hl
      · rw [← heq] at htop
        simp at htop
    | cons a rest =>
      rw [← htl] at htop
      simpa using htop

/-- C1: on a window with no modal child in focus, each of the keyboard, mouse,
scroll and motion callbacks changes nothing but the log, to which it appends
one handler call per widget of a list `invoked`.  That list obeys the dispatch
order: it is a prefix of the visible widgets taken last attached first, every
widget in it but the last rejects the event, and either its last widget
accepts or it is the whole list of visible widgets and none of them accepts.
Every widget in it is visible, and when some widget is visible its first
entry is the last attached visible widget. -/
theorem C1_dispatch_order (W : Widgets) (s : Sys) (i : Nat)
    (hModal : (s.win i).fModal.childFocus = none)
    (press : Bool) (key mods time : Nat) (button x y imods : Int) (dx dy : Nat) :
    (∃ invoked : List Nat,
      onPuglKeyboard W s i press key mods time =
        { s with log := s.log ++
                 invoked.map (fun w => Effect.onKeyboard w (keyboardEvent press key mods time)) } ∧
      DispatchOrder W.isVisible (fun w => W.onKeyboard w (keyboardEvent press key mods time))
        (s.win i).fWidgets invoked ∧
      (∀ w ∈ invoked, W.isVisible w = true) ∧
      (∀ top, ((s.win i).fWidgets.reverse.filter W.isVisible).head? = some top →
        invoked.head? = some top)) ∧
    (∃ invoked : List Nat,
      onPuglMouse W s i button press x y imods time =
        { s with log := s.log ++
                 invoked.map (fun w => Effect.onMouse w (mouseEvent W button press x y imods time w)) } ∧
      DispatchOrder W.isVisible
        (fun w => W.onMouse w (mouseEvent W button press x y imods time w))
        (s.win i).fWidgets invoked ∧
      (∀ w ∈ invoked, W.isVisible w = true) ∧
      (∀ top, ((s.win i).fWidgets.reverse.filter W.isVisible).head? = some top →
        invoked.head? = some top)) ∧
    (∃ invoked : List Nat,
      onPuglScroll W s i x y dx dy time =
        { s with log := s.log ++
                 invoked.map (fun w => Effect.onScroll w (scrollEvent W x y dx dy time w)) } ∧
      DispatchOrder W.isVisible (fun w => W.onScroll w (scrollEvent W x y dx dy time w))
        (s.win i).fWidgets invoked ∧
      (∀ w ∈ invoked, W.isVisible w = true) ∧
      (∀ top, ((s.win i).fWidgets.reverse.filter W.isVisible).head? = some top →
        invoked.head? = some top)) ∧
    (∃ invoked : List Nat,
      onPuglMotion W s i x y time =
        { s with log := s.log ++
                 invoked.map (fun w => Effect.onMotion w (motionEvent W x y time w)) } ∧
      DispatchOrder W.isVisible (fun w => W.onMotion w (motionEvent W x y time w))
        (s.win i).fWidgets invoked ∧
      (∀ w ∈ invoked, W.isVisible w = true) ∧
      (∀ top, ((s.win i).fWidgets.reverse.filter W.isVisible).head? = some top →
        invoked.head? = some top)) := by
  refine ⟨?_, ?_, ?_, ?_⟩
  · simp only [onPuglKeyboard, hModal]
    exact offerLoop_dispatchOrder _ _ _ _ s
  · simp only [onPuglMouse, hModal]
    exact offerLoop_dispatchOrder _ _ _ _ s
  · simp only [onPuglScroll, hModal]
    exact offerLoop_dispatchOrder _ _ _ _ s
  · simp only [onPuglMotion, hModal]
    exact offerLoop_dispatchOrder _ _ _ _ s

theorem C1_dispatch_order_witness :
    (fourWidgets.win 0).fModal.childFocus = none ∧
    ∃ invoked : List Nat,
      onPuglKeyboard pickyWidgets fourWidgets 0 true 65 0 1000 =
        { fourWidgets with log := fourWidgets.log ++
                 invoked.map (fun w => Effect.onKeyboard w (keyboardEvent true 65 0 1000)) } ∧
      DispatchOrder pickyWidgets.isVisible
        (fun w => pickyWidgets.onKeyboard w (keyboardEvent true 65 0 1000))
        (fourWidgets.win 0).fWidgets invoked ∧
      (∀ w ∈ invoked, pickyWidgets.isVisible w = true) ∧
      (∀ top, ((fourWidgets.win 0).fWidgets.reverse.filter pickyWidgets.isVisible).head? =
          some top → invoked.head? = some top) :=
  ⟨rfl, (C1_dispatch_order pickyWidgets fourWidgets 0 rfl true 65 0 1000 0 0 0 0 0 0).1⟩

/-- The run of the keyboard callback on the sample window: widget 3 is hidden
and skipped, widget 4 is asked first and rejects, widget 2 accepts, widget 1
is never asked. -/
theorem onPuglKeyboard_fourWidgets :
    (onPuglKeyboard pickyWidgets fourWidgets 0 true 65 0 1000).log =
      [Effect.onKeyboard 4 (keyboardEvent true 65 0 1000),
       Effect.onKeyboard 2 (keyboardEvent true 65 0 1000)] := by
  decide

/-- C2: while a modal child `c` has the focus of a window, the scroll and
motion callbacks return the state they were given, and the keyboard and mouse
callbacks add the single call `glfwFocusWindow` for the child to the log and
change nothing else; so no handler of any widget is called and every record,
the window's own included, is as before, whatever the widget list. -/
theorem C2_modal_child_blocks_input (W : Widgets) (s : Sys) (i c : Nat)
    (hModal : (s.win i).fModal.childFocus = some c)
    (press : Bool) (key mods time : Nat) (button x y imods : Int) (dx dy : Nat) :
    onPuglKeyboard W s i press key mods time =
      { s with log := s.log ++ [Effect.glfwFocusWindow c] } ∧
    onPuglMouse W s i button press x y imods time =
      { s with log := s.log ++ [Effect.glfwFocusWindow c] } ∧
    onPuglScroll W s i x y dx dy time = s ∧
    onPuglMotion W s i x y time = s ∧
    (onPuglKeyboard W s i press key mods time).win = s.win ∧
    (onPuglMouse W s i button press x y imods time).win = s.win := by
  have hk : onPuglKeyboard W s i press key mods time = focus s c := by
    simp only [onPuglKeyboard, hModal]
  have hm : onPuglMouse W s i button press x y imods time = focus s c := by
    simp only [onPuglMouse, hModal]
  refine ⟨?_, ?_, ?_, ?_, ?_, ?_⟩
  · rw [hk]; rfl
  · rw [hm]; rfl
  · simp only [onPuglScroll, hModal]
  · simp only [onPuglMotion, hModal]
  · rw [hk]; rfl
  · rw [hm]; rfl

theorem C2_modal_child_blocks_input_witness :
    (modalRunning.win 0).fModal.childFocus = some 1 ∧
    onPuglKeyboard pickyWidgets modalRunning 0 true 65 0 1000 =
      { modalRunning with log := modalRunning.log ++ [Effect.glfwFocusWindow 1] } ∧
    onPuglMouse pickyWidgets modalRunning 0 0 true 5 5 0 1000 =
      { modalRunning with log := modalRunning.log ++ [Effect.glfwFocusWindow 1] } ∧
    onPuglScroll pickyWidgets modalRunning 0 5 5 0 0 1000 = modalRunning ∧
    onPuglMotion pickyWidgets modalRunning 0 5 5 1000 = modalRunning ∧
    (onPuglKeyboard pickyWidgets modalRunning 0 true 65 0 1000).win = modalRunning.win ∧
    (onPuglMouse pickyWidgets modalRunning 0 0 true 5 5 0 1000).win = modalRunning.win :=
  ⟨rfl, C2_modal_child_blocks_input pickyWidgets modalRunning 0 1 rfl true 65 0 1000 0 5 5 0 0 0⟩

/-! ### What every call keeps -/

theorem Keeps.self (d : PrivateData) : Keeps d d :=
  ⟨rfl, rfl, fun _ => ⟨rfl, rfl⟩, id⟩

theorem Keeps.next {a b c : PrivateData} (h1 : Keeps a b) (h2 : Keeps b c) : Keeps a c := by
  obtain ⟨e1, p1, v1, m1⟩ := h1
  obtain ⟨e2, p2, v2, m2⟩ := h2
  refine ⟨e2.trans e1, p2.trans p1, fun he => ?_, fun hm => m2 (m1 hm)⟩
  have hb := v2 (e1.trans he)
  have ha := v1 he
  exact ⟨hb.1.trans ha.1, hb.2.trans ha.2⟩

theorem SysKeeps.same (s : Sys) : SysKeeps s s :=
  ⟨rfl, fun j => Keeps.self (s.win j)⟩

theorem SysKeeps.andThen {a b c : Sys} (h1 : SysKeeps a b) (h2 : SysKeeps b c) : SysKeeps a c :=
  ⟨h2.1.trans h1.1, fun j => (h1.2 j).next (h2.2 j)⟩

theorem SysKeeps.of_eq {s t : Sys} (hw : t.windows = s.windows) (h : t.win = s.win) :
    SysKeeps s t :=
  ⟨hw, fun j => by rw [h]; exact Keeps.self _⟩

theorem emit_keeps (s : Sys) (e : Effect) : SysKeeps s (s.emit e) :=
  SysKeeps.of_eq rfl rfl

theorem setWin_keeps (s : Sys) (i : Nat) (d : PrivateData) (h : Keeps (s.win i) d) :
    SysKeeps s (s.setWin i d) := by
  refine ⟨rfl, fun j => ?_⟩
  by_cases hj : j = i
  · subst hj
    simpa using h
  · simpa [hj] using Keeps.self (s.win j)

theorem setSize_keeps (s : Sys) (i w h : Nat) (f : Bool) : SysKeeps s (setSize s i w h f) := by
  unfold setSize
  split_ifs
  · exact SysKeeps.same s
  · exact SysKeeps.same s
  · refine ((setWin_keeps s i _ ?_).andThen (emit_keeps _ _)).andThen (emit_keeps _ _)
    simp [Keeps, ModalInv]

theorem exec_fini_keeps (s : Sys) (i : Nat) : SysKeeps s (exec_fini s i) := by
  unfold exec_fini
  have h1 : SysKeeps s
      (s.setWin i { s.win i with fModal := { (s.win i).fModal with enabled := false } }) := by
    apply setWin_keeps
    simp only [Keeps, ModalInv]
    simp
    intro h _
    exact h
  dsimp only
  split
  · refine h1.andThen (setWin_keeps _ _ _ ?_)
    simp only [Keeps, ModalInv]
    simp
  · exact h1

theorem exec_fini_enabled (s : Sys) (i : Nat) :
    ((exec_fini s i).win i).fModal.enabled = false := by
  unfold exec_fini
  dsimp only
  split
  · rename_i p hp
    by_cases hpi : i = p
    · subst hpi; simp
    · simp [Sys.setWin_win, hpi]
  · simp

theorem exec_fini_childFocus (s : Sys) (i p : Nat) (hp : (s.win i).fModal.parent = some p) :
    ((exec_fini s i).win p).fModal.childFocus = none := by
  unfold exec_fini
  simp [hp]

theorem Keeps.of_fields {d e : PrivateData} (h1 : e.fUsingEmbed = d.fUsingEmbed)
    (h2 : e.fModal.parent = d.fModal.parent)
    (h3 : d.fUsingEmbed = true → e.fVisible = d.fVisible ∧ e.fResizable = d.fResizable)
    (h4 : ModalInv d → e.fModal.enabled = true → e.fVisible = true ∧ e.fModal.parent ≠ none) :
    Keeps d e := by
  refine ⟨h1, h2, h3, fun hm => ⟨?_, h4 hm⟩⟩
  rw [h1, h2]
  exact hm.1

theorem keeps_emit {s t : Sys} (e : Effect) (h : SysKeeps s t) : SysKeeps s (t.emit e) :=
  h.andThen (emit_keeps t e)

theorem keeps_setWin {s t : Sys} (i : Nat) (d : PrivateData) (h : SysKeeps s t)
    (hd : Keeps (t.win i) d) : SysKeeps s (t.setWin i d) :=
  h.andThen (setWin_keeps t i d hd)

theorem keeps_setSize {s t : Sys} (i w h : Nat) (f : Bool) (hk : SysKeeps s t) :
    SysKeeps s (setSize t i w h f) :=
  hk.andThen (setSize_keeps t i w h f)

theorem setVisible_keeps (s : Sys) (i : Nat) (v : Bool) : SysKeeps s (setVisible s i v) := by
  unfold setVisible
  by_cases h1 : (s.win i).fVisible = v
  · rw [if_pos h1]
    exact SysKeeps.same s
  rw [if_neg h1]
  by_cases h2 : (s.win i).fUsingEmbed = true
  · rw [if_pos h2]
    exact SysKeeps.same s
  rw [if_neg h2]
  have hE : (s.win i).fUsingEmbed = false := by simpa using h2
  cases v
  · simp only [Bool.false_eq_true, false_and, if_false, Sys.emit_win]
    by_cases he : (s.win i).fModal.enabled = true
    · simp only [Sys.setWin_win_same, he, if_true]
      have hk := exec_fini_keeps
        ((s.setWin i { s.win i with fVisible := false }).emit (Effect.glfwHideWindow i)) i
      refine ⟨hk.1, fun j => ?_⟩
      obtain ⟨k1, k2, k3, k4⟩ := hk.2 j
      by_cases hj : j = i
      · subst hj
        simp only [Sys.emit_win, Sys.setWin_win_same] at k1 k2 k3 k4
        refine Keeps.of_fields k1 k2 (fun hc => ?_) (fun _ hen => ?_)
        · rw [hE] at hc
          cases hc
        · rw [exec_fini_enabled] at hen
          cases hen
      · simp only [Sys.emit_win, ne_eq, hj, not_false_eq_true, Sys.setWin_win_ne] at k1 k2 k3 k4
        exact ⟨k1, k2, k3, k4⟩
    · simp only [Sys.setWin_win_same, he, if_false]
      refine (setWin_keeps s i _ ?_).andThen (emit_keeps _ _)
      refine Keeps.of_fields rfl rfl (fun hc => ?_) (fun _ hen => ?_)
      · rw [hE] at hc
        cases hc
      · exact absurd hen he
  · have hk1 : SysKeeps s (s.setWin i { s.win i with fVisible := true }) := by
      apply setWin_keeps
      refine Keeps.of_fields rfl rfl (fun hc => ?_) (fun hm hen => ⟨rfl, (hm.2 hen).2⟩)
      rw [hE] at hc
      cases hc
    have hfirst : ∀ (t : Sys) (d : PrivateData), d = t.win i →
        Keeps (t.win i) { d with fFirstInit := false } := by
      intro t d hd
      subst hd
      simp only [Keeps, ModalInv]
      simp
    dsimp only
    split_ifs
    all_goals
      first
      | exact keeps_setWin _ _ (keeps_emit _ (keeps_emit _ (keeps_setSize _ _ _ _ hk1)))
          (hfirst _ _ rfl)
      | exact keeps_setWin _ _ (keeps_emit _ (keeps_emit _ hk1)) (hfirst _ _ rfl)
      | exact keeps_emit _ (keeps_setSize _ _ _ _ hk1)
      | exact keeps_emit _ hk1
      | simp_all

theorem keeps_setVisible {s t : Sys} (i : Nat) (v : Bool) (hk : SysKeeps s t) :
    SysKeeps s (setVisible t i v) :=
  hk.andThen (setVisible_keeps t i v)

theorem close_keeps (s : Sys) (i : Nat) : SysKeeps s (close s i) := by
  unfold close
  dsimp only
  split_ifs
  · exact SysKeeps.same s
  · refine keeps_setWin _ _ (keeps_emit _ (setVisible_keeps s i false)) ?_
    simp only [Keeps, ModalInv]
    simp
  · exact setVisible_keeps s i false

theorem exec_init_keeps (s : Sys) (i : Nat) : SysKeeps s (exec_init s i) := by
  unfold exec_init
  split
  · exact keeps_setVisible _ _ (emit_keeps s _)
  · rename_i p hp
    dsimp only
    generalize hs2 : (s.setWin i
        { s.win i with fModal := { (s.win i).fModal with enabled := true } }).setWin p
        { (s.setWin i
            { s.win i with fModal := { (s.win i).fModal with enabled := true } }).win p with
          fModal := { ((s.setWin i
            { s.win i with fModal := { (s.win i).fModal with enabled := true } }).win p).fModal
              with childFocus := some i } } = s2
    have hw : s2.windows = s.windows := by subst hs2; rfl
    have hE : ∀ j, (s2.win j).fUsingEmbed = (s.win j).fUsingEmbed := by
      intro j; subst hs2
      simp only [Sys.setWin_win]
      split_ifs <;> simp_all
    have hP : ∀ j, (s2.win j).fModal.parent = (s.win j).fModal.parent := by
      intro j; subst hs2
      simp only [Sys.setWin_win]
      split_ifs <;> simp_all
    have hV : ∀ j, (s2.win j).fVisible = (s.win j).fVisible := by
      intro j; subst hs2
      simp only [Sys.setWin_win]
      split_ifs <;> simp_all
    have hR : ∀ j, (s2.win j).fResizable = (s.win j).fResizable := by
      intro j; subst hs2
      simp only [Sys.setWin_win]
      split_ifs <;> simp_all
    have hN : ∀ j, j ≠ i → (s2.win j).fModal.enabled = (s.win j).fModal.enabled := by
      intro j hj; subst hs2
      simp only [Sys.setWin_win]
      split_ifs <;> simp_all
    have k3 := setVisible_keeps s2 p true
    have k4 := setVisible_keeps (setVisible s2 p true) i true
    have K := k3.andThen k4
    refine ⟨K.1.trans hw, fun j => ?_⟩
    obtain ⟨e1, e2, e3, e4⟩ := K.2 j
    refine Keeps.of_fields (e1.trans (hE j)) (e2.trans (hP j)) (fun hc => ?_) (fun hm hen => ?_)
    · have := e3 ((hE j).trans hc)
      exact ⟨this.1.trans (hV j), this.2.trans (hR j)⟩
    · by_cases hj : j = i
      · subst hj
        have hpar : (s.win j).fModal.parent ≠ none := by rw [hp]; simp
        have hemb : ((setVisible s2 p true).win j).fUsingEmbed = false := by
          rw [(k3.2 j).1, hE j]
          exact hm.1 hpar
        refine ⟨setVisible_fVisible _ j true hemb, ?_⟩
        rw [e2, hP j]
        exact hpar
      · have hm2 : ModalInv (s2.win j) := by
          refine ⟨?_, ?_⟩
          · rw [hP j, hE j]; exact hm.1
          · rw [hN j hj, hV j, hP j]; exact hm.2
        exact (e4 hm2).2 hen

theorem setResizable_keeps (s : Sys) (i : Nat) (v : Bool) : SysKeeps s (setResizable s i v) := by
  unfold setResizable
  dsimp only
  split_ifs with h1 h2
  · exact SysKeeps.same s
  · exact SysKeeps.same s
  · refine keeps_setSize _ _ _ _ (setWin_keeps s i _ ?_)
    simp only [Keeps, ModalInv]
    simp
    intro hc
    exact absurd hc h2

theorem setTitle_keeps (s t : Sys) (i : Nat) (title : CharPtr)
    (h : setTitle s i title = some t) : SysKeeps s t := by
  unfold setTitle at h
  dsimp only at h
  split at h
  · cases h
  · simp only [Option.some.injEq] at h
    subst h
    refine keeps_emit _ (keeps_setWin _ _ (setWin_keeps s i _ ?_) ?_)
    · simp only [Keeps, ModalInv]
      simp
    · simp only [Keeps, ModalInv]
      simp

theorem addWidget_keeps (s : Sys) (i w : Nat) : SysKeeps s (addWidget s i w) := by
  unfold addWidget
  refine setWin_keeps s i _ ?_
  simp only [Keeps, ModalInv]
  simp

theorem removeWidget_keeps (s : Sys) (i w : Nat) : SysKeeps s (removeWidget s i w) := by
  unfold removeWidget
  refine setWin_keeps s i _ ?_
  simp only [Keeps, ModalInv]
  simp

theorem offerLoop_keeps (visible : Nat → Bool) (call : Nat → Effect) (accept : Nat → Bool)
    (l : List Nat) (s : Sys) : SysKeeps s (offerLoop visible call accept l s) := by
  obtain ⟨inv, h, _⟩ := offerLoop_spec visible call accept l s
  rw [h]
  exact SysKeeps.of_eq rfl rfl

theorem reshapeWidgets_keeps (W : Widgets) (w h : Nat) (l : List Nat) :
    ∀ s t : Sys, SysKeeps s t → SysKeeps s (reshapeWidgets W w h l t) := by
  induction l with
  | nil => intro s t hk; exact hk
  | cons x xs ih =>
    intro s t hk
    unfold reshapeWidgets
    split_ifs
    · exact ih s _ (keeps_emit _ hk)
    · exact ih s _ hk

theorem displayWidgets_keeps (w h : Nat) (l : List Nat) :
    ∀ s t : Sys, SysKeeps s t → SysKeeps s (displayWidgets w h l t) := by
  induction l with
  | nil => intro s t hk; exact hk
  | cons x xs ih =>
    intro s t hk
    unfold displayWidgets
    exact ih s _ (keeps_emit _ hk)

theorem onPuglReshape_keeps (W : Widgets) (s : Sys) (i : Nat) (width height : Int) :
    SysKeeps s (onPuglReshape W s i width height) := by
  unfold onPuglReshape
  dsimp only
  split_ifs
  · exact SysKeeps.same s
  · refine reshapeWidgets_keeps _ _ _ _ _ _ (keeps_emit _ (setWin_keeps s i _ ?_))
    simp only [Keeps, ModalInv]
    simp

theorem onPuglDisplay_keeps (s : Sys) (i : Nat) : SysKeeps s (onPuglDisplay s i) := by
  unfold onPuglDisplay
  exact keeps_emit _ (keeps_emit _ (displayWidgets_keeps _ _ _ _ _ (emit_keeps s _)))

theorem onPuglClose_keeps (s : Sys) (i : Nat) : SysKeeps s (onPuglClose s i) := by
  unfold onPuglClose
  dsimp only
  refine SysKeeps.andThen ?_ (close_keeps _ i)
  have h1 : SysKeeps s (if (s.win i).fModal.enabled = true then exec_fini s i else s) := by
    split_ifs
    · exact exec_fini_keeps s i
    · exact SysKeeps.same s
  split
  · exact keeps_emit _ (keeps_emit _ h1)
  · exact keeps_emit _ h1

theorem dispatch_keeps (W : Widgets) (s : Sys) (e : Event) : SysKeeps s (dispatch W s e) := by
  cases e with
  | keyboard i press key mods time =>
    simp only [dispatch, onPuglKeyboard]
    split
    · exact emit_keeps s _
    · exact offerLoop_keeps _ _ _ _ s
  | mouse i button press x y mods time =>
    simp only [dispatch, onPuglMouse]
    split
    · exact emit_keeps s _
    · exact offerLoop_keeps _ _ _ _ s
  | scroll i x y dx dy time =>
    simp only [dispatch, onPuglScroll]
    split
    · exact SysKeeps.same s
    · exact offerLoop_keeps _ _ _ _ s
  | motion i x y time =>
    simp only [dispatch, onPuglMotion]
    split
    · exact SysKeeps.same s
    · exact offerLoop_keeps _ _ _ _ s
  | reshape i width height => exact onPuglReshape_keeps W s i width height
  | display i => exact onPuglDisplay_keeps s i
  | close i => exact onPuglClose_keeps s i

theorem foldl_dispatch_keeps (W : Widgets) (batch : List Event) :
    ∀ s t : Sys, SysKeeps s t → SysKeeps s (batch.foldl (dispatch W) t) := by
  induction batch with
  | nil => intro s t hk; exact hk
  | cons e es ih =>
    intro s t hk
    exact ih s _ (hk.andThen (dispatch_keeps W t e))

theorem glfwPollEvents_keeps (W : Widgets) (s : Sys) (script : Script) :
    SysKeeps s (glfwPollEvents W s script).1 := by
  unfold glfwPollEvents
  split
  · exact emit_keeps s _
  · exact foldl_dispatch_keeps W _ s _ (emit_keeps s _)

theorem idle_keeps (W : Widgets) (depth : Nat) :
    ∀ (s : Sys) (i : Nat) (script : Script) (r : Sys × Script),
      idle W depth s i script = some r → SysKeeps s r.1 := by
  induction depth with
  | zero => intro s i script r h; simp [idle] at h
  | succ n ih =>
    intro s i script r h
    have hk : SysKeeps s ((glfwPollEvents W s script).1.emit (Effect.glfwSwapBuffers i)) :=
      keeps_emit _ (glfwPollEvents_keeps W s script)
    unfold idle at h
    dsimp only at h
    split_ifs at h
    · split at h
      · exact hk.andThen (ih _ _ _ _ h)
      · cases h; exact hk
    · cases h; exact hk

theorem execLoop_keeps (W : Widgets) (fuel : Nat) :
    ∀ (s : Sys) (i : Nat) (script : Script) (r : Sys × Script),
      execLoop W fuel s i script = some r → SysKeeps s r.1 := by
  induction fuel with
  | zero =>
    intro s i script r h
    unfold execLoop at h
    split_ifs at h
    cases h
    exact SysKeeps.same s
  | succ n ih =>
    intro s i script r h
    unfold execLoop at h
    split_ifs at h
    · split at h
      · cases h
      · rename_i r1 hr1
        exact (keeps_emit _ (idle_keeps W _ _ _ _ _ hr1)).andThen (ih _ _ _ _ h)
    · cases h
      exact SysKeeps.same s

theorem exec_keeps (W : Widgets) (fuel : Nat) (s : Sys) (i : Nat) (lockWait : Bool)
    (script : Script) (r : Sys × Script) (h : exec W fuel s i lockWait script = some r) :
    SysKeeps s r.1 := by
  unfold exec at h
  dsimp only at h
  split_ifs at h
  · split at h
    · cases h
    · rename_i r1 hr1
      cases h
      exact ((exec_init_keeps s i).andThen (execLoop_keeps W _ _ _ _ _ hr1)).andThen
        (exec_fini_keeps _ _)
  · exact (exec_init_keeps s i).andThen (idle_keeps W _ _ _ _ _ h)

/-! ### Steps and runs -/

theorem addIdleCallback_keeps (s : Sys) (i : Nat) (cb : Option Nat) :
    SysKeeps s (Window.addIdleCallback s i cb) := by
  cases cb <;> exact SysKeeps.of_eq rfl rfl

theorem removeIdleCallback_keeps (s : Sys) (i : Nat) (cb : Option Nat) :
    SysKeeps s (Window.removeIdleCallback s i cb) := by
  cases cb <;> exact SysKeeps.of_eq rfl rfl

theorem plainRecord_modalInv (parent : Option Nat) : ModalInv (plainRecord parent) := by
  simp [ModalInv, plainRecord]

theorem SysKeeps.stepSpec {s t : Sys} (h : SysKeeps s t) :
    (∀ j ∈ s.windows, j ∈ t.windows ∧ Keeps (s.win j) (t.win j)) ∧
    ((∀ j, ModalInv (s.win j)) → ∀ j, ModalInv (t.win j)) :=
  ⟨fun j hj => ⟨h.1 ▸ hj, h.2 j⟩, fun hm j => (h.2 j).2.2.2 (hm j)⟩

theorem ctor_step_spec {s t : Sys} {i : Nat} (hfresh : i ∉ s.windows)
    (hi : ModalInv (t.win i)) (hother : ∀ j, j ≠ i → t.win j = s.win j)
    (hw : t.windows = s.windows ++ [i]) :
    (∀ j ∈ s.windows, j ∈ t.windows ∧ Keeps (s.win j) (t.win j)) ∧
    ((∀ j, ModalInv (s.win j)) → ∀ j, ModalInv (t.win j)) := by
  refine ⟨fun j hj => ⟨by rw [hw]; exact List.mem_append_left _ hj, ?_⟩, fun hm j => ?_⟩
  · have hne : j ≠ i := fun e => hfresh (e ▸ hj)
    rw [hother j hne]
    exact Keeps.self _
  · by_cases hj : j = i
    · subst hj; exact hi
    · rw [hother j hj]; exact hm j

theorem step_spec (W : Widgets) (s t : Sys) (a : Action) (h : step W s a = some t) :
    (∀ j ∈ s.windows, j ∈ t.windows ∧ Keeps (s.win j) (t.win j)) ∧
    ((∀ j, ModalInv (s.win j)) → ∀ j, ModalInv (t.win j)) := by
  unfold step at h
  split_ifs at h with hwf
  cases a with
  | newWindow i ok =>
    simp only [Action.wellFormed, decide_eq_true_eq] at hwf
    obtain ⟨h1, h2, h3, _⟩ := newWindow_spec s t i ok h
    exact ctor_step_spec hwf (h1 ▸ plainRecord_modalInv _) h2 h3
  | newWindowWithParent i parent ok =>
    simp only [Action.wellFormed, Bool.and_eq_true, decide_eq_true_eq] at hwf
    obtain ⟨h1, h2, h3, _⟩ := newWindowWithParent_spec s t i parent ok h
    exact ctor_step_spec hwf.1 (h1 ▸ plainRecord_modalInv _) h2 h3
  | newWindowEmbed i parentId ok =>
    simp only [Action.wellFormed, decide_eq_true_eq] at hwf
    obtain ⟨h1, h2, h3, _⟩ := newWindowEmbed_spec s t i parentId ok h
    refine ctor_step_spec hwf ?_ h2 h3
    rw [h1]
    simp [ModalInv]
  | «show» i => cases h; exact (setVisible_keeps s i true).stepSpec
  | hide i => cases h; exact (setVisible_keeps s i false).stepSpec
  | close i => cases h; exact (close_keeps s i).stepSpec
  | exec i lockWait script fuel =>
    simp only [Action.apply, Option.map_eq_some'] at h
    obtain ⟨r, hr, rfl⟩ := h
    exact (exec_keeps W fuel s i lockWait script r hr).stepSpec
  | focus i => cases h; exact (emit_keeps s _).stepSpec
  | setVisible i yesNo => cases h; exact (setVisible_keeps s i yesNo).stepSpec
  | setResizable i yesNo => cases h; exact (setResizable_keeps s i yesNo).stepSpec
  | setSize i width height => cases h; exact (setSize_keeps s i width height false).stepSpec
  | setTitle i title => exact (setTitle_keeps s t i title h).stepSpec
  | _addWidget i widget => cases h; exact (addWidget_keeps s i widget).stepSpec
  | _removeWidget i widget => cases h; exact (removeWidget_keeps s i widget).stepSpec
  | _idle i script fuel =>
    simp only [Action.apply, Option.map_eq_some'] at h
    obtain ⟨r, hr, rfl⟩ := h
    exact (idle_keeps W fuel s i script r hr).stepSpec
  | addIdleCallback i callback => cases h; exact (addIdleCallback_keeps s i callback).stepSpec
  | removeIdleCallback i callback =>
    cases h; exact (removeIdleCallback_keeps s i callback).stepSpec
  | exec_init i => cases h; exact (exec_init_keeps s i).stepSpec
  | exec_fini i => cases h; exact (exec_fini_keeps s i).stepSpec
  | event e => cases h; exact (dispatch_keeps W s e).stepSpec

theorem run_spec (W : Widgets) (acts : List Action) :
    ∀ s t : Sys, run W acts s = some t →
      (∀ j ∈ s.windows, j ∈ t.windows ∧ Keeps (s.win j) (t.win j)) ∧
      ((∀ j, ModalInv (s.win j)) → ∀ j, ModalInv (t.win j)) := by
  induction acts with
  | nil =>
    intro s t h
    simp only [run, Option.some.injEq] at h
    subst h
    exact ⟨fun j hj => ⟨hj, Keeps.self _⟩, fun hm => hm⟩
  | cons a rest ih =>
    intro s t h
    unfold run at h
    split at h
    · cases h
    · rename_i s1 hs1
      obtain ⟨a1, a2⟩ := step_spec W s s1 a hs1
      obtain ⟨b1, b2⟩ := ih s1 t h
      refine ⟨fun j hj => ?_, fun hm => b2 (a2 hm)⟩
      obtain ⟨m1, k1⟩ := a1 j hj
      obtain ⟨m2, k2⟩ := b1 j m1
      exact ⟨m2, k1.next k2⟩

theorem reachable_modalInv (W : Widgets) (s : Sys) (h : Reachable W s) (j : Nat) :
    ModalInv (s.win j) := by
  obtain ⟨acts, hrun⟩ := h
  refine (run_spec W acts Sys.initial s hrun).2 (fun k => ?_) j
  simp [ModalInv, Sys.initial]

/-! ### Embedded windows -/

theorem newWindowEmbed_initial : newWindowEmbed Sys.initial 0 42 true = some embeddedWindow := by
  have h42 : decide ((42 : Int) ≠ 0) = true := by decide
  simp only [newWindowEmbed, init, if_true, Sys.setWin_win_same, h42, Option.some.injEq]
  ext j
  · by_cases hj : j = 0
    · subst hj
      simp [Sys.setWin, Sys.emit, embeddedWindow]
    · simp [Sys.setWin, Sys.emit, embeddedWindow, hj]
  all_goals rfl

/-- C9: a window built by the constructor that takes a parent id, with a parent
id that is not zero, is visible and not resizable right after construction and
after every run of calls that follows: constructors of other windows, members
of any window with any arguments (`setVisible`, `show`, `hide`, `setResizable`,
`close`, `exec` and the others) and callbacks of the windowing library (the
close callback among them). -/
theorem C9_embedded_visible_not_resizable (W : Widgets) (s0 s1 s2 : Sys) (i : Nat)
    (parentId : Int) (ok : Bool) (acts : List Action) (hId : parentId ≠ 0)
    (hNew : newWindowEmbed s0 i parentId ok = some s1) (hRun : run W acts s1 = some s2) :
    Window.isVisible s1 i = true ∧ Window.isResizable s1 i = false ∧
    Window.isVisible s2 i = true ∧ Window.isResizable s2 i = false := by
  obtain ⟨hrec, _, hw, _⟩ := newWindowEmbed_spec s0 s1 i parentId ok hNew
  have hv : (s1.win i).fVisible = true := by rw [hrec]; simp [hId]
  have hr : (s1.win i).fResizable = false := by rw [hrec]; simp [hId]
  have he : (s1.win i).fUsingEmbed = true := by rw [hrec]; simp [hId]
  have hmem : i ∈ s1.windows := by rw [hw]; simp
  obtain ⟨_, _, _, hk, _⟩ := (run_spec W acts s1 s2 hRun).1 i hmem
  obtain ⟨k1, k2⟩ := hk he
  exact ⟨hv, hr, k1.trans hv, k2.trans hr⟩

theorem C9_embedded_visible_not_resizable_witness :
    newWindowEmbed Sys.initial 0 42 true = some embeddedWindow ∧
    (run quietWidgets embeddedCalls embeddedWindow).map
      (fun s => (Window.isVisible s 0, Window.isResizable s 0)) = some (true, false) := by
  obtain ⟨s2, h2⟩ : ∃ s2, run quietWidgets embeddedCalls embeddedWindow = some s2 := ⟨_, rfl⟩
  have h := C9_embedded_visible_not_resizable quietWidgets Sys.initial embeddedWindow s2 0 42
    true embeddedCalls (by decide) newWindowEmbed_initial h2
  refine ⟨newWindowEmbed_initial, ?_⟩
  rw [h2]
  simp [h.2.2.1, h.2.2.2]

/-! ### Showing a window -/

theorem setSize_forced_log (s : Sys) (i w h : Nat) :
    (setSize s i w h true).log =
      s.log ++ (if 1 < w ∧ 1 < h
        then [Effect.glfwSetWindowSize i w h, Effect.glfwSwapBuffers i] else []) := by
  unfold setSize
  by_cases h1 : w ≤ 1 ∨ h ≤ 1
  · have h2 : ¬ (1 < w ∧ 1 < h) := by omega
    simp [h1, h2]
  · have h2 : 1 < w ∧ 1 < h := by omega
    simp [h1, h2]

theorem setVisible_true_win (s : Sys) (i : Nat) (hv : (s.win i).fVisible = false)
    (he : (s.win i).fUsingEmbed = false) (j : Nat) :
    (setVisible s i true).win j =
      if j = i then { s.win i with fVisible := true, fFirstInit := false } else s.win j := by
  unfold setVisible
  rw [if_neg (by simp [hv]), if_neg (by simp [he])]
  simp only [true_and, if_true, Sys.setWin_win_same, Sys.emit_win]
  by_cases hf : (s.win i).fFirstInit = true
  · rw [if_pos hf, if_pos (by simpa [setSize_win] using hf)]
    by_cases hj : j = i
    · subst hj
      simp only [Sys.setWin_win_same, Sys.emit_win, setSize_win, if_true]
      split_ifs <;> simp
    · simp [hj, setSize_win]
  · have hf0 : (s.win i).fFirstInit = false := by simpa using hf
    rw [if_neg hf, if_neg (by simp [hf])]
    by_cases hj : j = i
    · subst hj
      simp [hf0]
    · simp [hj]

theorem setVisible_true_log (s : Sys) (i : Nat) (hv : (s.win i).fVisible = false)
    (he : (s.win i).fUsingEmbed = false) :
    (setVisible s i true).log =
      s.log ++
        (if (s.win i).fFirstInit = true ∧ 1 < (s.win i).fWidth ∧ 1 < (s.win i).fHeight
          then [Effect.glfwSetWindowSize i (s.win i).fWidth (s.win i).fHeight,
                Effect.glfwSwapBuffers i] else []) ++
        [Effect.glfwShowWindow i] ++
        (if (s.win i).fFirstInit = true then [Effect.oneShown i] else []) := by
  unfold setVisible
  rw [if_neg (by simp [hv]), if_neg (by simp [he])]
  simp only [true_and, if_true, Sys.setWin_win_same, Sys.emit_win]
  by_cases hf : (s.win i).fFirstInit = true
  · rw [if_pos hf, if_pos (by simpa [setSize_win] using hf)]
    simp only [Sys.setWin_log, Sys.emit_log, setSize_forced_log, hf, true_and, if_true]
  · rw [if_neg hf, if_neg (by simp [hf])]
    simp [hf]

/-! ### Starting the modal loop without a modal parent -/

/-- C7, the claim as worded fails: on the new window of `oneWindow`, which has
no modal parent, `exec_init` is not a no-op.  Before the call the window is
hidden, its first-init flag is set and nothing was sent; after the call it is
visible, the flag is cleared, and the log holds the failed assertion, the
native show call and a `oneShown` notification. -/
theorem C7_missing_parent_is_not_a_noop :
    (oneWindow.win 0).fModal.parent = none ∧
    (oneWindow.win 0).fVisible = false ∧ ((exec_init oneWindow 0).win 0).fVisible = true ∧
    (oneWindow.win 0).fFirstInit = true ∧ ((exec_init oneWindow 0).win 0).fFirstInit = false ∧
    oneWindow.log = [] ∧
    (exec_init oneWindow 0).log =
      [Effect.safeAssert 0, Effect.glfwShowWindow 0, Effect.oneShown 0] := by
  refine ⟨rfl, rfl, ?_, rfl, ?_, rfl, ?_⟩ <;> decide

/-- C7, amended: on a window without a modal parent `exec_init` reports the
failed assertion and then does what `setVisible(true)` does; it does not enter
modal mode.  The modal fields and the size of the window and the records of
all other windows are unchanged.  A window that is already visible, or is
embedded, is left as it was and only the assertion is logged.  A hidden window
that is not embedded becomes visible with its first-init flag cleared and
nothing else changed; the log gains the assertion, the native resize calls
when the flag was set and the stored size is valid, the native show call, and
one `oneShown` exactly when the flag was set; `oneHidden` is never sent. -/
theorem C7_exec_init_without_parent (s : Sys) (i : Nat)
    (hp : (s.win i).fModal.parent = none) :
    exec_init s i = setVisible (s.emit (Effect.safeAssert i)) i true ∧
    ((exec_init s i).win i).fModal = (s.win i).fModal ∧
    ((exec_init s i).win i).fWidth = (s.win i).fWidth ∧
    ((exec_init s i).win i).fHeight = (s.win i).fHeight ∧
    (∀ j, j ≠ i → (exec_init s i).win j = s.win j) ∧
    ((s.win i).fVisible = true ∨ (s.win i).fUsingEmbed = true →
      exec_init s i = s.emit (Effect.safeAssert i)) ∧
    ((s.win i).fVisible = false ∧ (s.win i).fUsingEmbed = false →
      (exec_init s i).win i = { s.win i with fVisible := true, fFirstInit := false } ∧
      (exec_init s i).log =
        s.log ++ [Effect.safeAssert i] ++
          (if (s.win i).fFirstInit = true ∧ 1 < (s.win i).fWidth ∧ 1 < (s.win i).fHeight
            then [Effect.glfwSetWindowSize i (s.win i).fWidth (s.win i).fHeight,
                  Effect.glfwSwapBuffers i] else []) ++
          [Effect.glfwShowWindow i] ++
          (if (s.win i).fFirstInit = true then [Effect.oneShown i] else [])) := by
  have h0 : exec_init s i = setVisible (s.emit (Effect.safeAssert i)) i true := by
    simp only [exec_init, hp]
  have hA : (s.win i).fVisible = true ∨ (s.win i).fUsingEmbed = true →
      exec_init s i = s.emit (Effect.safeAssert i) := by
    intro h
    rw [h0]
    unfold setVisible
    rcases h with h | h
    · rw [if_pos (by simpa using h)]
    · by_cases hv : (s.win i).fVisible = true
      · rw [if_pos (by simpa using hv)]
      · rw [if_neg (by simpa using hv), if_pos (by simpa using h)]
  have hB : (s.win i).fVisible = false ∧ (s.win i).fUsingEmbed = false →
      ∀ j, (exec_init s i).win j =
        if j = i then { s.win i with fVisible := true, fFirstInit := false } else s.win j := by
    intro h j
    rw [h0, setVisible_true_win _ i (by simpa using h.1) (by simpa using h.2)]
    rfl
  have hcases : ((s.win i).fVisible = true ∨ (s.win i).fUsingEmbed = true) ∨
      ((s.win i).fVisible = false ∧ (s.win i).fUsingEmbed = false) := by
    cases (s.win i).fVisible <;> cases (s.win i).fUsingEmbed <;> simp
  refine ⟨h0, ?_, ?_, ?_, ?_, hA, ?_⟩
  · rcases hcases with h | h
    · rw [hA h]; rfl
    · rw [hB h i]; simp
  · rcases hcases with h | h
    · rw [hA h]; rfl
    · rw [hB h i]; simp
  · rcases hcases with h | h
    · rw [hA h]; rfl
    · rw [hB h i]; simp
  · intro j hj
    rcases hcases with h | h
    · rw [hA h]; rfl
    · rw [hB h j]; simp [hj]
  · intro h
    refine ⟨by rw [hB h i]; simp, ?_⟩
    rw [h0, setVisible_true_log _ i (by simpa using h.1) (by simpa using h.2)]
    simp

theorem C7_exec_init_without_parent_witness :
    (oneWindow.win 0).fModal.parent = none ∧
    exec_init oneWindow 0 = setVisible (oneWindow.emit (Effect.safeAssert 0)) 0 true ∧
    ((exec_init oneWindow 0).win 0).fModal = (oneWindow.win 0).fModal ∧
    ((exec_init oneWindow 0).win 0).fWidth = (oneWindow.win 0).fWidth ∧
    ((exec_init oneWindow 0).win 0).fHeight = (oneWindow.win 0).fHeight ∧
    (exec_init oneWindow 0).win 0 =
      { oneWindow.win 0 with fVisible := true, fFirstInit := false } :=
  ⟨rfl, (C7_exec_init_without_parent oneWindow 0 rfl).1,
   (C7_exec_init_without_parent oneWindow 0 rfl).2.1,
   (C7_exec_init_without_parent oneWindow 0 rfl).2.2.1,
   (C7_exec_init_without_parent oneWindow 0 rfl).2.2.2.1,
   ((C7_exec_init_without_parent oneWindow 0 rfl).2.2.2.2.2.2 ⟨rfl, rfl⟩).1⟩

/-! ### Modal execution -/

theorem setVisible_fModal (s : Sys) (i : Nat) (v : Bool)
    (h : v = true ∨ (s.win i).fModal.enabled = false) (j : Nat) :
    ((setVisible s i v).win j).fModal = (s.win j).fModal := by
  unfold setVisible
  by_cases h1 : (s.win i).fVisible = v
  · rw [if_pos h1]
  rw [if_neg h1]
  by_cases h2 : (s.win i).fUsingEmbed = true
  · rw [if_pos h2]
  rw [if_neg h2]
  cases v
  · have hen : (s.win i).fModal.enabled = false := by
      rcases h with h | h
      · cases h
      · exact h
    simp only [Bool.false_eq_true, false_and, if_false, Sys.emit_win, Sys.setWin_win_same, hen,
      Sys.setWin_win]
    split_ifs with hj
    · subst hj; rfl
    · rfl
  · simp only [true_and, if_true, Sys.setWin_win_same, Sys.emit_win]
    split_ifs <;> simp only [Sys.setWin_win, Sys.emit_win, setSize_win] <;> split_ifs <;>
      simp_all

theorem exec_fini_parent (s : Sys) (i j : Nat) :
    ((exec_fini s i).win j).fModal.parent = (s.win j).fModal.parent :=
  ((exec_fini_keeps s i).2 j).2.1

theorem exec_fini_ends_modal (s : Sys) (i : Nat) :
    ((exec_fini s i).win i).fModal.enabled = false ∧
    ∀ p, (s.win i).fModal.parent = some p → ((exec_fini s i).win p).fModal.childFocus = none :=
  ⟨exec_fini_enabled s i, fun p hp => exec_fini_childFocus s i p hp⟩

theorem setSize_size_pos (s : Sys) (i w h : Nat) (f : Bool) (j : Nat)
    (hw : 1 ≤ (s.win j).fWidth) (hh : 1 ≤ (s.win j).fHeight) :
    1 ≤ ((setSize s i w h f).win j).fWidth ∧ 1 ≤ ((setSize s i w h f).win j).fHeight := by
  rw [setSize_win]
  split_ifs with hc
  · obtain ⟨_, h1, h2⟩ := hc
    exact ⟨by simpa using h1.le, by simpa using h2.le⟩
  · exact ⟨hw, hh⟩

/-- C11, the code at the failing input: a window is built (size 1 x 1), sized
to 640 x 480 by `setSize`, and then receives the reshape callback with width 0
and height 480.  The guard of `onPuglReshape` rejects a size only when both
numbers are at most 1, so the callback stores width 0: afterwards
`getWidth()` returns 0.  The same happens on the new window itself with the
callback arguments 0 and 5. -/
theorem C11_reshape_stores_zero_width :
    (run quietWidgets zeroWidthCalls Sys.initial).map
      (fun s => (Window.getWidth s 0, Window.getHeight s 0)) = some (0, 480) ∧
    Window.getWidth (onPuglReshape quietWidgets oneWindow 0 0 5) 0 = 0 ∧
    Window.getHeight (onPuglReshape quietWidgets oneWindow 0 0 5) 0 = 5 := by
  refine ⟨by decide, by decide, by decide⟩

/-! ### Replaying notifications -/

theorem replayShown_append (i : Nat) (l1 l2 : List Effect) :
    ∀ b, replayShown i b (l1 ++ l2) =
      (replayShown i b l1).bind (fun c => replayShown i c l2) := by
  induction l1 with
  | nil => intro b; rfl
  | cons e rest ih =>
    intro b
    simp only [List.cons_append, replayShown]
    split_ifs <;> simp [ih]

theorem replayShown_quiet (i : Nat) (l : List Effect)
    (h : ∀ e ∈ l, e ≠ Effect.oneShown i ∧ e ≠ Effect.oneHidden i) :
    ∀ b, replayShown i b l = some b := by
  induction l with
  | nil => intro b; rfl
  | cons e rest ih =>
    intro b
    have he := h e (List.mem_cons_self _ _)
    simp only [replayShown, he.1, he.2, if_false]
    exact ih (fun x hx => h x (List.mem_cons_of_mem _ hx)) b

theorem replayShown_counts (i : Nat) (l : List Effect) :
    ∀ b c, replayShown i b l = some c →
      (shownCount i l : Int) + (if b = true then 1 else 0) =
        (hiddenCount i l : Int) + (if c = true then 1 else 0) := by
  induction l with
  | nil =>
    intro b c h
    simp only [replayShown, Option.some.injEq] at h
    subst h
    simp [shownCount, hiddenCount]
  | cons e rest ih =>
    intro b c h
    simp only [replayShown] at h
    by_cases h1 : e = Effect.oneShown i
    · subst h1
      cases b
      · simp only [if_true, Bool.false_eq_true, if_false] at h
        have := ih true c h
        simp only [shownCount, hiddenCount, if_true, Bool.false_eq_true, if_false] at this ⊢
        rw [List.count_cons_self, List.count_cons_of_ne (by simp)]
        push_cast
        omega
      · simp at h
    · by_cases h2 : e = Effect.oneHidden i
      · subst h2
        cases b
        · simp at h
        · simp only [if_true, if_false, h1] at h
          have := ih false c h
          simp only [shownCount, hiddenCount, if_true, Bool.false_eq_true, if_false] at this ⊢
          rw [List.count_cons_self, List.count_cons_of_ne (by simp)]
          push_cast
          omega
      · simp only [h1, h2, if_false] at h
        have := ih b c h
        simp only [shownCount, hiddenCount] at this ⊢
        rw [List.count_cons_of_ne (Ne.symm h1), List.count_cons_of_ne (Ne.symm h2)]
        exact this

theorem replayShown_of_le (i : Nat) (l : List Effect) :
    ∀ (b c : Bool) (p : List Effect), replayShown i b l = some c → p <+: l →
      ∃ d, replayShown i b p = some d := by
  induction l with
  | nil =>
    intro b c p _ hp
    have : p = [] := List.prefix_nil.mp hp
    subst this
    exact ⟨b, rfl⟩
  | cons e rest ih =>
    intro b c p h hp
    cases p with
    | nil => exact ⟨b, rfl⟩
    | cons x xs =>
      obtain ⟨hx, hxs⟩ := List.cons_prefix_cons.mp hp
      subst hx
      simp only [replayShown] at h ⊢
      split_ifs at h ⊢ with h1 h2 h3
      all_goals exact ih _ c xs h hxs

/-! ### Accounts and modal consistency across a call -/

theorem acct_refl (j : Nat) (s : Sys) : Acct j s s :=
  ⟨[], by simp, rfl⟩

theorem acct_trans {j : Nat} {a b c : Sys} (h1 : Acct j a b) (h2 : Acct j b c) : Acct j a c := by
  obtain ⟨l1, e1, r1⟩ := h1
  obtain ⟨l2, e2, r2⟩ := h2
  refine ⟨l1 ++ l2, by rw [e2, e1, List.append_assoc], ?_⟩
  rw [replayShown_append, r1]
  exact r2

theorem acct_emit (j : Nat) (s : Sys) (e : Effect) (h : e.isNotification = false) :
    Acct j s (s.emit e) := by
  refine ⟨[e], rfl, ?_⟩
  apply replayShown_quiet
  intro x hx
  rw [List.mem_singleton] at hx
  subst hx
  constructor <;> intro hc <;> rw [hc] at h <;> simp [Effect.isNotification] at h

theorem acct_setWin (j : Nat) (s : Sys) (i : Nat) (d : PrivateData)
    (h : d.fFirstInit = (s.win i).fFirstInit) : Acct j s (s.setWin i d) := by
  refine ⟨[], by simp, ?_⟩
  by_cases hj : j = i
  · subst hj
    simp [replayShown, h]
  · simp [replayShown, hj]

theorem acct_shown (j : Nat) (s : Sys) (i : Nat) (d : PrivateData)
    (h1 : (s.win i).fFirstInit = true) (h2 : d.fFirstInit = false) :
    Acct j s ((s.emit (Effect.oneShown i)).setWin i d) := by
  refine ⟨[Effect.oneShown i], rfl, ?_⟩
  by_cases hj : j = i
  · subst hj
    simp [replayShown, h1, h2]
  · have hne : Effect.oneShown i ≠ Effect.oneShown j := by
      intro hc
      injection hc with hc
      exact hj hc.symm
    simp [replayShown, hne, hj]

theorem acct_hidden (j : Nat) (s : Sys) (i : Nat) (d : PrivateData)
    (h1 : (s.win i).fFirstInit = false) (h2 : d.fFirstInit = true) :
    Acct j s ((s.emit (Effect.oneHidden i)).setWin i d) := by
  refine ⟨[Effect.oneHidden i], rfl, ?_⟩
  by_cases hj : j = i
  · subst hj
    simp [replayShown, h1, h2]
  · have hne : Effect.oneHidden i ≠ Effect.oneHidden j := by
      intro hc
      injection hc with hc
      exact hj hc.symm
    simp [replayShown, hne, hj]

theorem modalConsistent_of_fModal {s t : Sys}
    (h : ∀ j, (t.win j).fModal = (s.win j).fModal) (hm : ModalConsistent s) :
    ModalConsistent t := by
  intro i hi
  rw [h i] at hi
  obtain ⟨p, hp, hc⟩ := hm i hi
  exact ⟨p, by rw [h i]; exact hp, by rw [h p]; exact hc⟩

theorem lone_of_modalConsistent {s : Sys} {i : Nat} (hm : ModalConsistent s)
    (hen : (s.win i).fModal.enabled = true) : Lone s i := by
  intro k hk _ heq
  obtain ⟨q, hq, hcq⟩ := hm k hk
  obtain ⟨p, hp, hcp⟩ := hm i hen
  rw [hq, hp, Option.some.injEq] at heq
  subst heq
  rw [hcq, Option.some.injEq] at hcp
  exact hcp

theorem orderly_refl (s : Sys) : Orderly s s :=
  ⟨fun j => acct_refl j s, fun _ => rfl, fun _ hk => hk, fun hm => hm⟩

theorem orderly_trans {a b c : Sys} (h1 : Orderly a b) (h2 : Orderly b c) : Orderly a c :=
  ⟨fun j => acct_trans (h1.1 j) (h2.1 j), fun j => (h2.2.1 j).trans (h1.2.1 j),
   fun k hk => h1.2.2.1 k (h2.2.2.1 k hk), fun hm => h2.2.2.2 (h1.2.2.2 hm)⟩

theorem lone_of_orderly {s t : Sys} {i : Nat} (ho : Orderly s t) (hl : Lone s i) :
    Lone t i := by
  intro k hk hpar heq
  rw [ho.2.1 i] at hpar
  rw [ho.2.1 k, ho.2.1 i] at heq
  exact hl k (ho.2.2.1 k hk) hpar heq

theorem orderly_of_fModal {s t : Sys} (ha : ∀ j, Acct j s t)
    (h : ∀ j, (t.win j).fModal = (s.win j).fModal) : Orderly s t :=
  ⟨ha, fun j => by rw [h j], fun k hk => by rw [h k] at hk; exact hk,
   fun hm => modalConsistent_of_fModal h hm⟩

theorem orderly_emit (s : Sys) (e : Effect) (h : e.isNotification = false) :
    Orderly s (s.emit e) :=
  orderly_of_fModal (fun j => acct_emit j s e h) (fun _ => rfl)

theorem setWin_fModal (s : Sys) (i : Nat) (d : PrivateData)
    (h : d.fModal = (s.win i).fModal) (j : Nat) :
    ((s.setWin i d).win j).fModal = (s.win j).fModal := by
  by_cases hj : j = i
  · subst hj
    simpa using h
  · simp [hj]

theorem orderly_setWin (s : Sys) (i : Nat) (d : PrivateData)
    (h1 : d.fFirstInit = (s.win i).fFirstInit) (h2 : d.fModal = (s.win i).fModal) :
    Orderly s (s.setWin i d) :=
  orderly_of_fModal (fun j => acct_setWin j s i d h1) (setWin_fModal s i d h2)

theorem orderly_shown (s : Sys) (i : Nat) (d : PrivateData)
    (h1 : (s.win i).fFirstInit = true) (h2 : d.fFirstInit = false)
    (h3 : d.fModal = (s.win i).fModal) :
    Orderly s ((s.emit (Effect.oneShown i)).setWin i d) :=
  orderly_of_fModal (fun j => acct_shown j s i d h1 h2)
    (fun j => setWin_fModal (s.emit (Effect.oneShown i)) i d h3 j)

theorem orderly_hidden (s : Sys) (i : Nat) (d : PrivateData)
    (h1 : (s.win i).fFirstInit = false) (h2 : d.fFirstInit = true)
    (h3 : d.fModal = (s.win i).fModal) :
    Orderly s ((s.emit (Effect.oneHidden i)).setWin i d) :=
  orderly_of_fModal (fun j => acct_hidden j s i d h1 h2)
    (fun j => setWin_fModal (s.emit (Effect.oneHidden i)) i d h3 j)

theorem ord_emit {s t : Sys} (e : Effect) (h : e.isNotification = false) (hk : Orderly s t) :
    Orderly s (t.emit e) :=
  orderly_trans hk (orderly_emit t e h)

theorem ord_setWin {s t : Sys} (i : Nat) (d : PrivateData) (hk : Orderly s t)
    (h1 : d.fFirstInit = (t.win i).fFirstInit) (h2 : d.fModal = (t.win i).fModal) :
    Orderly s (t.setWin i d) :=
  orderly_trans hk (orderly_setWin t i d h1 h2)

theorem setSize_orderly (s : Sys) (i w h : Nat) (f : Bool) : Orderly s (setSize s i w h f) := by
  unfold setSize
  split_ifs
  · exact orderly_refl s
  · exact orderly_refl s
  · exact ord_emit _ rfl (ord_emit _ rfl (orderly_setWin s i _ rfl rfl))

theorem ord_setSize {s t : Sys} (i w h : Nat) (f : Bool) (hk : Orderly s t) :
    Orderly s (setSize t i w h f) :=
  orderly_trans hk (setSize_orderly t i w h f)

theorem exec_fini_enabled_ne (s : Sys) (i k : Nat) (hk : k ≠ i) :
    ((exec_fini s i).win k).fModal.enabled = (s.win k).fModal.enabled := by
  unfold exec_fini
  dsimp only
  split <;> simp only [Sys.setWin_win] <;> split_ifs <;> simp_all

theorem exec_fini_childFocus_ne (s : Sys) (i q : Nat)
    (hq : (s.win i).fModal.parent ≠ some q) :
    ((exec_fini s i).win q).fModal.childFocus = (s.win q).fModal.childFocus := by
  unfold exec_fini
  dsimp only
  split <;> simp only [Sys.setWin_win] <;> split_ifs <;> simp_all

theorem exec_fini_acct (s : Sys) (i j : Nat) : Acct j s (exec_fini s i) := by
  unfold exec_fini
  dsimp only
  split
  · refine acct_trans (acct_setWin j s i _ ?_) (acct_setWin j _ _ _ ?_)
    · rfl
    · rfl
  · exact acct_setWin j s i _ rfl

theorem exec_fini_modalConsistent (s : Sys) (i : Nat) (hl : Lone s i)
    (hm : ModalConsistent s) : ModalConsistent (exec_fini s i) := by
  intro k hk
  have hki : k ≠ i := by
    intro e
    subst e
    rw [exec_fini_enabled] at hk
    cases hk
  rw [exec_fini_enabled_ne s i k hki] at hk
  obtain ⟨q, hq, hc⟩ := hm k hk
  refine ⟨q, by rw [exec_fini_parent]; exact hq, ?_⟩
  rw [exec_fini_childFocus_ne s i q ?_]
  · exact hc
  · intro hiq
    exact hki (hl k hk (by rw [hiq]; simp) (hq.trans hiq.symm))

theorem exec_fini_still_enabled (s : Sys) (i k : Nat)
    (hk : ((exec_fini s i).win k).fModal.enabled = true) :
    (s.win k).fModal.enabled = true := by
  have hki : k ≠ i := by
    intro e
    subst e
    rw [exec_fini_enabled] at hk
    cases hk
  rw [exec_fini_enabled_ne s i k hki] at hk
  exact hk

theorem exec_fini_orderly (s : Sys) (i : Nat) (hen : (s.win i).fModal.enabled = true) :
    Orderly s (exec_fini s i) :=
  ⟨fun j => exec_fini_acct s i j, fun j => ((exec_fini_keeps s i).2 j).2.1,
   fun k hk => exec_fini_still_enabled s i k hk,
   fun hm => exec_fini_modalConsistent s i (lone_of_modalConsistent hm hen) hm⟩

theorem ord_exec_fini {s t : Sys} (i : Nat) (hen : (t.win i).fModal.enabled = true)
    (hk : Orderly s t) : Orderly s (exec_fini t i) :=
  orderly_trans hk (exec_fini_orderly t i hen)

theorem setVisible_orderly (s : Sys) (i : Nat) (v : Bool) : Orderly s (setVisible s i v) := by
  unfold setVisible
  by_cases h1 : (s.win i).fVisible = v
  · rw [if_pos h1]
    exact orderly_refl s
  rw [if_neg h1]
  by_cases h2 : (s.win i).fUsingEmbed = true
  · rw [if_pos h2]
    exact orderly_refl s
  rw [if_neg h2]
  cases v
  · have hk1 : Orderly s ((s.setWin i { s.win i with fVisible := false }).emit
        (Effect.glfwHideWindow i)) :=
      ord_emit _ rfl (orderly_setWin s i _ rfl rfl)
    simp only [Bool.false_eq_true, false_and, if_false]
    split_ifs
    · exact ord_exec_fini i (by assumption) hk1
    · exact hk1
  · have hk1 : Orderly s (s.setWin i { s.win i with fVisible := true }) :=
      orderly_setWin s i _ rfl rfl
    dsimp only
    split_ifs
    all_goals
      first
      | exact orderly_trans (ord_emit _ (by rfl) (ord_setSize _ _ _ _ hk1))
          (orderly_shown _ i _ (by assumption) (by rfl) (by rfl))
      | exact orderly_trans (ord_emit _ (by rfl) hk1)
          (orderly_shown _ i _ (by assumption) (by rfl) (by rfl))
      | exact ord_emit _ rfl (ord_setSize _ _ _ _ hk1)
      | exact ord_emit _ rfl hk1
      | simp_all

theorem ord_setVisible {s t : Sys} (i : Nat) (v : Bool) (hk : Orderly s t) :
    Orderly s (setVisible t i v) :=
  orderly_trans hk (setVisible_orderly t i v)

theorem close_orderly (s : Sys) (i : Nat) : Orderly s (close s i) := by
  unfold close
  dsimp only
  split_ifs with c1 c2
  · exact orderly_refl s
  · exact orderly_trans (setVisible_orderly s i false)
      (orderly_hidden _ i _ (by assumption) (by rfl) (by rfl))
  · exact setVisible_orderly s i false

theorem exec_init_fModal (s : Sys) (i p : Nat) (hp : (s.win i).fModal.parent = some p)
    (j : Nat) :
    ((exec_init s i).win j).fModal =
      if j = p then
        { (if p = i then { (s.win i).fModal with enabled := true } else (s.win p).fModal) with
          childFocus := some i }
      else if j = i then { (s.win i).fModal with enabled := true }
      else (s.win j).fModal := by
  simp only [exec_init, hp]
  rw [setVisible_fModal _ _ true (Or.inl rfl), setVisible_fModal _ _ true (Or.inl rfl)]
  simp only [Sys.setWin_win]
  split_ifs <;> simp_all

theorem exec_init_of_no_parent (s : Sys) (i : Nat) (hp : (s.win i).fModal.parent = none) :
    Orderly s (exec_init s i) := by
  have h0 : exec_init s i = setVisible (s.emit (Effect.safeAssert i)) i true := by
    simp only [exec_init, hp]
  rw [h0]
  exact ord_setVisible i true (orderly_emit s _ rfl)

theorem exec_init_acct (s : Sys) (i j : Nat) : Acct j s (exec_init s i) := by
  cases hp : (s.win i).fModal.parent with
  | none => exact (exec_init_of_no_parent s i hp).1 j
  | some p =>
    simp only [exec_init, hp]
    refine acct_trans (acct_trans (acct_trans (acct_setWin j s i _ ?_)
      (acct_setWin j _ p _ ?_)) ((setVisible_orderly _ p true).1 j))
      ((setVisible_orderly _ i true).1 j)
    · rfl
    · rfl

theorem exec_init_still_enabled (s : Sys) (i k : Nat)
    (hk : ((exec_init s i).win k).fModal.enabled = true) :
    k = i ∨ (s.win k).fModal.enabled = true := by
  cases hp : (s.win i).fModal.parent with
  | none => exact Or.inr ((exec_init_of_no_parent s i hp).2.2.1 k hk)
  | some p =>
    by_cases hki : k = i
    · exact Or.inl hki
    · right
      rw [exec_init_fModal s i p hp k] at hk
      by_cases c1 : k = p
      · subst c1
        rw [if_pos rfl, if_neg hki] at hk
        exact hk
      · rw [if_neg c1, if_neg hki] at hk
        exact hk

theorem exec_init_modalConsistent (s : Sys) (i : Nat) (hl : Lone s i)
    (hm : ModalConsistent s) : ModalConsistent (exec_init s i) := by
  cases hp : (s.win i).fModal.parent with
  | none => exact (exec_init_of_no_parent s i hp).2.2.2 hm
  | some p =>
    intro k hk
    by_cases hki : k = i
    · subst hki
      refine ⟨p, ?_, ?_⟩
      · rw [((exec_init_keeps s k).2 k).2.1]
        exact hp
      · rw [exec_init_fModal s k p hp p]
        simp
    · have hen : (s.win k).fModal.enabled = true := by
        rcases exec_init_still_enabled s i k hk with e | e
        · exact absurd e hki
        · exact e
      obtain ⟨q, hq, hc⟩ := hm k hen
      have hqp : q ≠ p := by
        intro e
        subst e
        exact hki (hl k hen (by rw [hp]; simp) (hq.trans hp.symm))
      refine ⟨q, ?_, ?_⟩
      · rw [((exec_init_keeps s i).2 k).2.1]
        exact hq
      · rw [exec_init_fModal s i p hp q, if_neg hqp]
        split_ifs with c
        · subst c
          exact hc
        · exact hc

theorem exec_init_lone (s : Sys) (i : Nat) (hl : Lone s i) : Lone (exec_init s i) i := by
  intro k hk hpar heq
  rw [((exec_init_keeps s i).2 i).2.1] at hpar
  rw [((exec_init_keeps s i).2 k).2.1, ((exec_init_keeps s i).2 i).2.1] at heq
  rcases exec_init_still_enabled s i k hk with e | e
  · exact e
  · exact hl k e hpar heq

theorem onPuglClose_orderly (s : Sys) (i : Nat) : Orderly s (onPuglClose s i) := by
  unfold onPuglClose
  dsimp only
  refine orderly_trans ?_ (close_orderly _ i)
  have h1 : Orderly s (if (s.win i).fModal.enabled = true then exec_fini s i else s) := by
    split_ifs with hen
    · exact exec_fini_orderly s i hen
    · exact orderly_refl s
  split
  · exact ord_emit _ rfl (ord_emit _ rfl h1)
  · exact ord_emit _ rfl h1

theorem setResizable_orderly (s : Sys) (i : Nat) (v : Bool) :
    Orderly s (setResizable s i v) := by
  unfold setResizable
  dsimp only
  split_ifs
  · exact orderly_refl s
  · exact orderly_refl s
  · exact ord_setSize _ _ _ _ (orderly_setWin s i _ rfl rfl)

theorem setTitle_orderly (s t : Sys) (i : Nat) (title : CharPtr)
    (h : setTitle s i title = some t) : Orderly s t := by
  unfold setTitle at h
  dsimp only at h
  split at h
  · cases h
  · simp only [Option.some.injEq] at h
    subst h
    exact ord_emit _ (by rfl) (ord_setWin _ _ (orderly_setWin s i _ rfl rfl) (by rfl) (by rfl))

theorem addWidget_orderly (s : Sys) (i w : Nat) : Orderly s (addWidget s i w) := by
  unfold addWidget
  exact orderly_setWin s i _ rfl rfl

theorem removeWidget_orderly (s : Sys) (i w : Nat) : Orderly s (removeWidget s i w) := by
  unfold removeWidget
  exact orderly_setWin s i _ rfl rfl

theorem orderly_of_eq {s t : Sys} (hl : t.log = s.log) (hw : t.win = s.win) : Orderly s t := by
  refine orderly_of_fModal (fun j => ⟨[], by simp [hl], ?_⟩) (fun j => by rw [hw])
  simp [replayShown, hw]

theorem offerLoop_orderly (visible : Nat → Bool) (call : Nat → Effect) (accept : Nat → Bool)
    (hc : ∀ w, (call w).isNotification = false) (l : List Nat) :
    ∀ s t : Sys, Orderly s t → Orderly s (offerLoop visible call accept l t) := by
  induction l with
  | nil => intro s t hk; exact hk
  | cons x xs ih =>
    intro s t hk
    unfold offerLoop
    dsimp only
    split_ifs
    · exact ord_emit _ (hc x) hk
    · exact ih s _ (ord_emit _ (hc x) hk)
    · exact ih s _ hk

theorem reshapeWidgets_orderly (W : Widgets) (w h : Nat) (l : List Nat) :
    ∀ s t : Sys, Orderly s t → Orderly s (reshapeWidgets W w h l t) := by
  induction l with
  | nil => intro s t hk; exact hk
  | cons x xs ih =>
    intro s t hk
    unfold reshapeWidgets
    split_ifs
    · exact ih s _ (ord_emit _ rfl hk)
    · exact ih s _ hk

theorem displayWidgets_orderly (w h : Nat) (l : List Nat) :
    ∀ s t : Sys, Orderly s t → Orderly s (displayWidgets w h l t) := by
  induction l with
  | nil => intro s t hk; exact hk
  | cons x xs ih =>
    intro s t hk
    unfold displayWidgets
    exact ih s _ (ord_emit _ rfl hk)

theorem onPuglReshape_orderly (W : Widgets) (s : Sys) (i : Nat) (width height : Int) :
    Orderly s (onPuglReshape W s i width height) := by
  unfold onPuglReshape
  dsimp only
  split_ifs
  · exact orderly_refl s
  · exact reshapeWidgets_orderly _ _ _ _ _ _ (ord_emit _ rfl (orderly_setWin s i _ rfl rfl))

theorem onPuglDisplay_orderly (s : Sys) (i : Nat) : Orderly s (onPuglDisplay s i) := by
  unfold onPuglDisplay
  exact ord_emit _ rfl (ord_emit _ rfl
    (displayWidgets_orderly _ _ _ _ _ (orderly_emit s _ rfl)))

theorem dispatch_orderly (W : Widgets) (s : Sys) (e : Event) : Orderly s (dispatch W s e) := by
  cases e with
  | keyboard i press key mods time =>
    simp only [dispatch, onPuglKeyboard]
    split
    · exact orderly_emit s _ rfl
    · exact offerLoop_orderly _ _ _ (fun _ => by rfl) _ s s (orderly_refl s)
  | mouse i button press x y mods time =>
    simp only [dispatch, onPuglMouse]
    split
    · exact orderly_emit s _ rfl
    · exact offerLoop_orderly _ _ _ (fun _ => by rfl) _ s s (orderly_refl s)
  | scroll i x y dx dy time =>
    simp only [dispatch, onPuglScroll]
    split
    · exact orderly_refl s
    · exact offerLoop_orderly _ _ _ (fun _ => by rfl) _ s s (orderly_refl s)
  | motion i x y time =>
    simp only [dispatch, onPuglMotion]
    split
    · exact orderly_refl s
    · exact offerLoop_orderly _ _ _ (fun _ => by rfl) _ s s (orderly_refl s)
  | reshape i width height => exact onPuglReshape_orderly W s i width height
  | display i => exact onPuglDisplay_orderly s i
  | close i => exact onPuglClose_orderly s i

theorem foldl_dispatch_orderly (W : Widgets) (batch : List Event) :
    ∀ s t : Sys, Orderly s t → Orderly s (batch.foldl (dispatch W) t) := by
  induction batch with
  | nil => intro s t hk; exact hk
  | cons e es ih =>
    intro s t hk
    exact ih s _ (orderly_trans hk (dispatch_orderly W t e))

theorem glfwPollEvents_orderly (W : Widgets) (s : Sys) (script : Script) :
    Orderly s (glfwPollEvents W s script).1 := by
  unfold glfwPollEvents
  split
  · exact orderly_emit s _ rfl
  · exact foldl_dispatch_orderly W _ s _ (orderly_emit s _ rfl)

theorem idle_orderly (W : Widgets) (depth : Nat) :
    ∀ (s : Sys) (i : Nat) (script : Script) (r : Sys × Script),
      idle W depth s i script = some r → Orderly s r.1 := by
  induction depth with
  | zero => intro s i script r h; simp [idle] at h
  | succ n ih =>
    intro s i script r h
    have hk : Orderly s ((glfwPollEvents W s script).1.emit (Effect.glfwSwapBuffers i)) :=
      ord_emit _ rfl (glfwPollEvents_orderly W s script)
    unfold idle at h
    dsimp only at h
    split_ifs at h
    · split at h
      · exact orderly_trans hk (ih _ _ _ _ h)
      · cases h; exact hk
    · cases h; exact hk

theorem execLoop_orderly (W : Widgets) (fuel : Nat) :
    ∀ (s : Sys) (i : Nat) (script : Script) (r : Sys × Script),
      execLoop W fuel s i script = some r → Orderly s r.1 := by
  induction fuel with
  | zero =>
    intro s i script r h
    unfold execLoop at h
    split_ifs at h
    cases h
    exact orderly_refl s
  | succ n ih =>
    intro s i script r h
    unfold execLoop at h
    split_ifs at h
    · split at h
      · cases h
      · rename_i r1 hr1
        exact orderly_trans (ord_emit _ (by rfl) (idle_orderly W _ _ _ _ _ hr1)) (ih _ _ _ _ h)
    · cases h
      exact orderly_refl s

theorem exec_acct (W : Widgets) (fuel : Nat) (s : Sys) (i : Nat) (lockWait : Bool)
    (script : Script) (r : Sys × Script) (h : exec W fuel s i lockWait script = some r)
    (j : Nat) : Acct j s r.1 := by
  unfold exec at h
  dsimp only at h
  split_ifs at h
  · split at h
    · cases h
    · rename_i r1 hr1
      cases h
      exact acct_trans
        (acct_trans (exec_init_acct s i j) ((execLoop_orderly W _ _ _ _ _ hr1).1 j))
        (exec_fini_acct _ i j)
  · exact acct_trans (exec_init_acct s i j) ((idle_orderly W _ _ _ _ _ h).1 j)

theorem exec_modalConsistent (W : Widgets) (fuel : Nat) (s : Sys) (i : Nat) (lockWait : Bool)
    (script : Script) (r : Sys × Script) (h : exec W fuel s i lockWait script = some r)
    (hl : Lone s i) (hm : ModalConsistent s) : ModalConsistent r.1 := by
  unfold exec at h
  dsimp only at h
  split_ifs at h
  · split at h
    · cases h
    · rename_i r1 hr1
      cases h
      have ho := execLoop_orderly W _ _ _ _ _ hr1
      exact exec_fini_modalConsistent _ i (lone_of_orderly ho (exec_init_lone s i hl))
        (ho.2.2.2 (exec_init_modalConsistent s i hl hm))
  · exact (idle_orderly W _ _ _ _ _ h).2.2.2 (exec_init_modalConsistent s i hl hm)

theorem addIdleCallback_orderly (s : Sys) (i : Nat) (cb : Option Nat) :
    Orderly s (Window.addIdleCallback s i cb) := by
  cases cb
  · exact orderly_emit s _ rfl
  · exact orderly_of_eq rfl rfl

theorem removeIdleCallback_orderly (s : Sys) (i : Nat) (cb : Option Nat) :
    Orderly s (Window.removeIdleCallback s i cb) := by
  cases cb
  · exact orderly_emit s _ rfl
  · exact orderly_of_eq rfl rfl

/-! ### Accounts and modal consistency along a run -/

theorem newWindowEmbed_log (s s1 : Sys) (i : Nat) (parentId : Int) (ok : Bool)
    (h : newWindowEmbed s i parentId ok = some s1) :
    s1.log = s.log ++
      (if parentId ≠ 0 then [Effect.glfwShowWindow i, Effect.oneShown i] else []) := by
  cases ok
  · simp [newWindowEmbed, init] at h
  · by_cases hp : parentId = 0
    · simp only [newWindowEmbed, init, if_true, hp] at h
      simp only [Sys.setWin_win_same, ne_eq, not_true_eq_false, decide_False, Bool.false_eq_true,
        if_false, Option.some.injEq] at h
      subst h
      simp [hp]
    · simp only [newWindowEmbed, init, if_true] at h
      simp only [Sys.setWin_win_same, ne_eq, hp, not_false_eq_true, decide_True,
        if_true, Option.some.injEq] at h
      subst h
      simp [hp, Sys.emit]

theorem registered_of_keeps {s t : Sys} (hk : SysKeeps s t) (hr : Registered s) :
    Registered t := by
  intro j p hj
  rw [(hk.2 j).2.1] at hj
  rw [hk.1]
  exact hr j p hj

theorem lone_of_noModalSibling {s : Sys} {i : Nat} (hg : NoModalSibling s i)
    (hr : Registered s) (hm : ModalConsistent s) : Lone s i := by
  intro k hk hpar heq
  obtain ⟨q, hq, _⟩ := hm k hk
  exact hg k (hr k q hq).1 hk hpar heq

theorem orderly_step_spec {s t : Sys} {G : Prop} (ho : Orderly s t)
    (hw : t.windows = s.windows) :
    (∀ j ∈ s.windows, Acct j s t) ∧ (Registered s → Registered t) ∧
    (G → Registered s → ModalConsistent s → ModalConsistent t) := by
  refine ⟨fun j _ => ho.1 j, fun hr j p hj => ?_, fun _ _ hm => ho.2.2.2 hm⟩
  rw [ho.2.1 j] at hj
  rw [hw]
  exact hr j p hj

theorem ctor_orderly_spec {s t : Sys} {i : Nat} {G : Prop} (hfresh : i ∉ s.windows)
    (hother : ∀ j, j ≠ i → t.win j = s.win j) (hw : t.windows = s.windows ++ [i])
    (hlog : ∃ sent, t.log = s.log ++ sent ∧
      ∀ e ∈ sent, ∀ j, j ≠ i → e ≠ Effect.oneShown j ∧ e ≠ Effect.oneHidden j)
    (hen : (t.win i).fModal.enabled = false)
    (hpar : ∀ p, (t.win i).fModal.parent = some p → p ∈ s.windows) :
    (∀ j ∈ s.windows, Acct j s t) ∧ (Registered s → Registered t) ∧
    (G → Registered s → ModalConsistent s → ModalConsistent t) := by
  refine ⟨fun j hj => ?_, fun hr j p hj => ?_, fun _ hr hm k hk => ?_⟩
  · have hne : j ≠ i := fun e => hfresh (e ▸ hj)
    obtain ⟨sent, hs, hq⟩ := hlog
    refine ⟨sent, hs, ?_⟩
    rw [hother j hne]
    exact replayShown_quiet j sent (fun e he => hq e he j hne) _
  · rw [hw]
    by_cases hji : j = i
    · subst hji
      exact ⟨by simp, List.mem_append_left _ (hpar p hj)⟩
    · rw [hother j hji] at hj
      obtain ⟨a, b⟩ := hr j p hj
      exact ⟨List.mem_append_left _ a, List.mem_append_left _ b⟩
  · have hki : k ≠ i := by
      intro e
      subst e
      rw [hen] at hk
      cases hk
    rw [hother k hki] at hk ⊢
    obtain ⟨q, hq, hc⟩ := hm k hk
    have hqi : q ≠ i := fun e => hfresh (e ▸ (hr k q hq).2)
    exact ⟨q, hq, by rw [hother q hqi]; exact hc⟩

theorem step_orderly_spec (W : Widgets) (s t : Sys) (a : Action) (h : step W s a = some t) :
    (∀ j ∈ s.windows, Acct j s t) ∧ (Registered s → Registered t) ∧
    (a.modalGuard s = true → Registered s → ModalConsistent s → ModalConsistent t) := by
  unfold step at h
  split_ifs at h with hwf
  cases a with
  | newWindow i ok =>
    simp only [Action.wellFormed, decide_eq_true_eq] at hwf
    obtain ⟨h1, h2, h3, _, h5⟩ := newWindow_spec s t i ok h
    refine ctor_orderly_spec hwf h2 h3 ⟨[], by simp [h5], by simp⟩ ?_ ?_
    · rw [h1]; rfl
    · intro p hp
      rw [h1] at hp
      simp [plainRecord] at hp
  | newWindowWithParent i parent ok =>
    simp only [Action.wellFormed, Bool.and_eq_true, decide_eq_true_eq] at hwf
    obtain ⟨h1, h2, h3, _, h5⟩ := newWindowWithParent_spec s t i parent ok h
    refine ctor_orderly_spec hwf.1 h2 h3 ⟨[], by simp [h5], by simp⟩ ?_ ?_
    · rw [h1]; rfl
    · intro p hp
      rw [h1] at hp
      simp only [plainRecord, Option.some.injEq] at hp
      subst hp
      exact hwf.2
  | newWindowEmbed i parentId ok =>
    simp only [Action.wellFormed, decide_eq_true_eq] at hwf
    obtain ⟨h1, h2, h3, _⟩ := newWindowEmbed_spec s t i parentId ok h
    refine ctor_orderly_spec hwf h2 h3 ⟨_, newWindowEmbed_log s t i parentId ok h, ?_⟩ ?_ ?_
    · intro e he j hj
      split_ifs at he
      · simp only [List.mem_cons, List.mem_singleton, List.not_mem_nil, or_false] at he
        rcases he with rfl | rfl
        · exact ⟨by simp, by simp⟩
        · exact ⟨by simpa using Ne.symm hj, by simp⟩
      · simp at he
    · rw [h1]
    · intro p hp
      rw [h1] at hp
      simp at hp
  | «show» i =>
    cases h
    exact orderly_step_spec (setVisible_orderly s i true) (setVisible_keeps s i true).1
  | hide i =>
    cases h
    exact orderly_step_spec (setVisible_orderly s i false) (setVisible_keeps s i false).1
  | close i => cases h; exact orderly_step_spec (close_orderly s i) (close_keeps s i).1
  | exec i lockWait script fuel =>
    simp only [Action.apply, Option.map_eq_some'] at h
    obtain ⟨r, hr, rfl⟩ := h
    exact ⟨fun j _ => exec_acct W fuel s i lockWait script r hr j,
      registered_of_keeps (exec_keeps W fuel s i lockWait script r hr),
      fun hg hreg hm => exec_modalConsistent W fuel s i lockWait script r hr
        (lone_of_noModalSibling (of_decide_eq_true hg) hreg hm) hm⟩
  | focus i => cases h; exact orderly_step_spec (orderly_emit s _ rfl) rfl
  | setVisible i yesNo =>
    cases h; exact orderly_step_spec (setVisible_orderly s i yesNo) (setVisible_keeps s i yesNo).1
  | setResizable i yesNo =>
    cases h
    exact orderly_step_spec (setResizable_orderly s i yesNo) (setResizable_keeps s i yesNo).1
  | setSize i width height =>
    cases h
    exact orderly_step_spec (setSize_orderly s i width height false)
      (setSize_keeps s i width height false).1
  | setTitle i title =>
    exact orderly_step_spec (setTitle_orderly s t i title h) (setTitle_keeps s t i title h).1
  | _addWidget i widget =>
    cases h; exact orderly_step_spec (addWidget_orderly s i widget) (addWidget_keeps s i widget).1
  | _removeWidget i widget =>
    cases h
    exact orderly_step_spec (removeWidget_orderly s i widget) (removeWidget_keeps s i widget).1
  | _idle i script fuel =>
    simp only [Action.apply, Option.map_eq_some'] at h
    obtain ⟨r, hr, rfl⟩ := h
    exact orderly_step_spec (idle_orderly W fuel s i script r hr)
      (idle_keeps W fuel s i script r hr).1
  | addIdleCallback i callback =>
    cases h
    exact orderly_step_spec (addIdleCallback_orderly s i callback)
      (addIdleCallback_keeps s i callback).1
  | removeIdleCallback i callback =>
    cases h
    exact orderly_step_spec (removeIdleCallback_orderly s i callback)
      (removeIdleCallback_keeps s i callback).1
  | exec_init i =>
    cases h
    exact ⟨fun j _ => exec_init_acct s i j, registered_of_keeps (exec_init_keeps s i),
      fun hg hreg hm => exec_init_modalConsistent s i
        (lone_of_noModalSibling (of_decide_eq_true hg) hreg hm) hm⟩
  | exec_fini i =>
    cases h
    exact ⟨fun j _ => exec_fini_acct s i j, registered_of_keeps (exec_fini_keeps s i),
      fun hg hreg hm => exec_fini_modalConsistent s i
        (lone_of_noModalSibling (of_decide_eq_true hg) hreg hm) hm⟩
  | event e =>
    cases h; exact orderly_step_spec (dispatch_orderly W s e) (dispatch_keeps W s e).1

theorem run_acct (W : Widgets) (acts : List Action) :
    ∀ s t : Sys, run W acts s = some t → ∀ j ∈ s.windows, Acct j s t := by
  induction acts with
  | nil =>
    intro s t h j _
    simp only [run, Option.some.injEq] at h
    subst h
    exact acct_refl j s
  | cons a rest ih =>
    intro s t h j hj
    unfold run at h
    split at h
    · cases h
    · rename_i s1 hs1
      have h1 := (step_orderly_spec W s s1 a hs1).1 j hj
      have hm := ((step_spec W s s1 a hs1).1 j hj).1
      exact acct_trans h1 (ih s1 t h j hm)

theorem run_registered (W : Widgets) (acts : List Action) :
    ∀ s t : Sys, run W acts s = some t → Registered s → Registered t := by
  induction acts with
  | nil =>
    intro s t h hr
    simp only [run, Option.some.injEq] at h
    subst h
    exact hr
  | cons a rest ih =>
    intro s t h hr
    unfold run at h
    split at h
    · cases h
    · rename_i s1 hs1
      exact ih s1 t h ((step_orderly_spec W s s1 a hs1).2.1 hr)

theorem run_guarded_modalConsistent (W : Widgets) (acts : List Action) :
    ∀ s t : Sys, run W acts s = some t → guarded W acts s = true → Registered s →
      ModalConsistent s → ModalConsistent t := by
  induction acts with
  | nil =>
    intro s t h _ _ hm
    simp only [run, Option.some.injEq] at h
    subst h
    exact hm
  | cons a rest ih =>
    intro s t h hg hr hm
    unfold run at h
    unfold guarded at hg
    split at h
    · cases h
    · rename_i s1 hs1
      simp only [hs1, Bool.and_eq_true] at hg
      obtain ⟨_, h2, h3⟩ := step_orderly_spec W s s1 a hs1
      exact ih s1 t h hg.2 (h2 hr) (h3 hg.1 hr hm)

theorem setVisible_false_log (s : Sys) (i : Nat) :
    (setVisible s i false).log = s.log ∨
    (setVisible s i false).log = s.log ++ [Effect.glfwHideWindow i] := by
  unfold setVisible
  by_cases h1 : (s.win i).fVisible = false
  · rw [if_pos h1]
    exact Or.inl rfl
  rw [if_neg h1]
  by_cases h2 : (s.win i).fUsingEmbed = true
  · rw [if_pos h2]
    exact Or.inl rfl
  rw [if_neg h2]
  right
  simp only [Bool.false_eq_true, false_and, if_false]
  split_ifs
  · unfold exec_fini
    dsimp only
    split <;> rfl
  · rfl

theorem ctor_acct (s0 s1 : Sys) (i : Nat)
    (hNew : (∃ ok, newWindow s0 i ok = some s1) ∨
      (∃ parent ok, newWindowWithParent s0 i parent ok = some s1) ∨
      (∃ parentId ok, newWindowEmbed s0 i parentId ok = some s1)) :
    i ∈ s1.windows ∧
    ∃ sent : List Effect, s1.log = s0.log ++ sent ∧
      replayShown i false sent = some (!(s1.win i).fFirstInit) := by
  rcases hNew with ⟨ok, h⟩ | ⟨parent, ok, h⟩ | ⟨parentId, ok, h⟩
  · obtain ⟨h1, _, h3, _, h5⟩ := newWindow_spec s0 s1 i ok h
    refine ⟨by rw [h3]; simp, [], by simp [h5], ?_⟩
    rw [h1]
    rfl
  · obtain ⟨h1, _, h3, _, h5⟩ := newWindowWithParent_spec s0 s1 i parent ok h
    refine ⟨by rw [h3]; simp, [], by simp [h5], ?_⟩
    rw [h1]
    rfl
  · obtain ⟨h1, _, h3, _⟩ := newWindowEmbed_spec s0 s1 i parentId ok h
    refine ⟨by rw [h3]; simp, _, newWindowEmbed_log s0 s1 i parentId ok h, ?_⟩
    rw [h1]
    by_cases hp : parentId = 0
    · simp [hp, replayShown]
    · simp [hp, replayShown]

theorem hide_counts (t : Sys) (i j : Nat) :
    shownCount j (setVisible t i false).log = shownCount j t.log ∧
    hiddenCount j (setVisible t i false).log = hiddenCount j t.log := by
  rcases setVisible_false_log t i with h | h
  · rw [h]
    exact ⟨rfl, rfl⟩
  · rw [h]
    simp [shownCount, hiddenCount, List.count_append]

/-- C12: a window is built by any of the three constructors and any run of
calls follows (`setVisible`, `close`, `exec_init`, `exec_fini`, the close
callback and every other call, on this or any other window).  Then, over what
the log gained since before the construction, the number of `oneShown`
notifications of the window minus the number of its `oneHidden` notifications
is 0 when `fFirstInit` is true and 1 when it is false; and at every point of
that log the `oneHidden` sent so far are no more than the `oneShown`, and the
`oneShown` at most one more than the `oneHidden`.  In any state, `hide()` adds
neither notification, for any window. -/
theorem C12_shown_hidden_accounting (W : Widgets) (s0 s1 s2 t : Sys) (i j : Nat)
    (acts : List Action)
    (hNew : (∃ ok, newWindow s0 i ok = some s1) ∨
      (∃ parent ok, newWindowWithParent s0 i parent ok = some s1) ∨
      (∃ parentId ok, newWindowEmbed s0 i parentId ok = some s1))
    (hRun : run W acts s1 = some s2) :
    (∃ sent : List Effect, s2.log = s0.log ++ sent ∧
      (shownCount i sent : Int) - (hiddenCount i sent : Int) =
        (if (s2.win i).fFirstInit = true then 0 else 1) ∧
      ∀ p, p <+: sent →
        hiddenCount i p ≤ shownCount i p ∧ shownCount i p ≤ hiddenCount i p + 1) ∧
    shownCount j (Window.hide t i).log = shownCount j t.log ∧
    hiddenCount j (Window.hide t i).log = hiddenCount j t.log := by
  refine ⟨?_, hide_counts t i j⟩
  obtain ⟨hmem, sent1, hl1, hr1⟩ := ctor_acct s0 s1 i hNew
  obtain ⟨sent2, hl2, hr2⟩ := run_acct W acts s1 s2 hRun i hmem
  have hrep : replayShown i false (sent1 ++ sent2) = some (!(s2.win i).fFirstInit) := by
    rw [replayShown_append, hr1]
    exact hr2
  refine ⟨sent1 ++ sent2, by rw [hl2, hl1, List.append_assoc], ?_, ?_⟩
  · have hc := replayShown_counts i _ _ _ hrep
    cases hf : (s2.win i).fFirstInit <;> simp [hf] at hc ⊢ <;> omega
  · intro p hp
    obtain ⟨d, hd⟩ := replayShown_of_le i _ false _ p hrep hp
    have hc := replayShown_counts i _ _ _ hd
    cases d <;> simp at hc <;> omega

theorem C12_shown_hidden_accounting_witness :
    newWindow Sys.initial 0 true = some oneWindow ∧
    (run quietWidgets accountCalls oneWindow).map
      (fun s => decide ((shownCount 0 s.log : Int) - (hiddenCount 0 s.log : Int) =
        (if (s.win 0).fFirstInit = true then 0 else 1))) = some true := by
  obtain ⟨s2, h2⟩ : ∃ s2, run quietWidgets accountCalls oneWindow = some s2 := ⟨_, rfl⟩
  obtain ⟨⟨sent, hl, hc, _⟩, _⟩ := C12_shown_hidden_accounting quietWidgets Sys.initial
    oneWindow s2 oneWindow 0 0 accountCalls (Or.inl ⟨true, newWindow_initial⟩) h2
  refine ⟨newWindow_initial, ?_⟩
  have hs : s2.log = sent := by simpa [Sys.initial] using hl
  rw [h2]
  simp only [Option.map_some', hs, Option.some.injEq, decide_eq_true_eq]
  exact hc

/-! ### Modal consistency -/

theorem initial_registered : Registered Sys.initial := by
  intro j p hj
  simp [Sys.initial] at hj

theorem initial_modalConsistent : ModalConsistent Sys.initial := by
  intro i hi
  simp [Sys.initial] at hi

/-- C13, the claim as worded fails: a parent window 0 gets two child windows,
1 and 2, and `exec_init` is called on child 1 and then on child 2.  Afterwards
child 1 is still modal-enabled and its parent is window 0, but the parent's
`childFocus` is child 2, not child 1.  When child 2 then leaves modal mode
(`exec_fini`), the parent's `childFocus` is null while child 1 is still
modal-enabled. -/
theorem C13_second_child_takes_the_focus :
    (run quietWidgets twoChildrenCalls Sys.initial).map
      (fun s => ((s.win 1).fModal.enabled, (s.win 1).fModal.parent,
        (s.win 0).fModal.childFocus)) = some (true, some 0, some 2) ∧
    (run quietWidgets (twoChildrenCalls ++ [Action.exec_fini 2]) Sys.initial).map
      (fun s => ((s.win 1).fModal.enabled, (s.win 1).fModal.parent,
        (s.win 0).fModal.childFocus)) = some (true, some 0, none) := by
  refine ⟨by decide, by decide⟩

/-- C13, amended: in every state reached from construction by any run of
calls (`exec_init`, `exec_fini`, `setVisible`, `close`, the close callback and
every other call), with any number of child windows per parent, whenever a
window's `fModal.enabled` is true its `fModal.parent` is not null.  When
moreover every call of `exec_init`, `exec_fini` and `exec` in the run was made
on a window none of whose siblings was in modal mode at that moment, that
parent's `fModal.childFocus` is this window; so the `childFocus` of a parent
is never null while one of its children is in modal mode. -/
theorem C13_modal_consistency_one_modal_sibling (W : Widgets) (acts : List Action) (s : Sys)
    (hRun : run W acts Sys.initial = some s) :
    (∀ i, (s.win i).fModal.enabled = true → (s.win i).fModal.parent ≠ none) ∧
    (guarded W acts Sys.initial = true → ModalConsistent s) ∧
    (guarded W acts Sys.initial = true → ∀ i p, (s.win i).fModal.enabled = true →
      (s.win i).fModal.parent = some p → (s.win p).fModal.childFocus = some i) := by
  have hpar : ∀ i, (s.win i).fModal.enabled = true → (s.win i).fModal.parent ≠ none :=
    fun i hi => ((reachable_modalInv W s ⟨acts, hRun⟩ i).2 hi).2
  have hm : guarded W acts Sys.initial = true → ModalConsistent s := fun hG =>
    run_guarded_modalConsistent W acts Sys.initial s hRun hG initial_registered
      initial_modalConsistent
  refine ⟨hpar, hm, fun hG i p hi hp => ?_⟩
  obtain ⟨q, hq, hc⟩ := hm hG i hi
  rw [hp, Option.some.injEq] at hq
  subst hq
  exact hc

theorem C13_modal_consistency_one_modal_sibling_witness :
    guarded quietWidgets siblingsInTurnCalls Sys.initial = true ∧
    (run quietWidgets siblingsInTurnCalls Sys.initial).map
      (fun s => ((s.win 1).fModal.enabled, (s.win 2).fModal.enabled, (s.win 2).fModal.parent,
        (s.win 0).fModal.childFocus)) = some (false, true, some 0, some 2) := by
  have hG : guarded quietWidgets siblingsInTurnCalls Sys.initial = true := by decide
  obtain ⟨s, hs⟩ : ∃ s, run quietWidgets siblingsInTurnCalls Sys.initial = some s := ⟨_, rfl⟩
  have h1 : (s.win 1).fModal.enabled = false := by
    have h := congrArg (Option.map (fun s => (s.win 1).fModal.enabled)) hs
    have hd : (run quietWidgets siblingsInTurnCalls Sys.initial).map
        (fun s => (s.win 1).fModal.enabled) = some false := by decide
    rw [hd] at h
    simpa using h.symm
  have hen : (s.win 2).fModal.enabled = true := by
    have h := congrArg (Option.map (fun s => (s.win 2).fModal.enabled)) hs
    have hd : (run quietWidgets siblingsInTurnCalls Sys.initial).map
        (fun s => (s.win 2).fModal.enabled) = some true := by decide
    rw [hd] at h
    simpa using h.symm
  have hpar : (s.win 2).fModal.parent = some 0 := by
    have h := congrArg (Option.map (fun s => (s.win 2).fModal.parent)) hs
    have hd : (run quietWidgets siblingsInTurnCalls Sys.initial).map
        (fun s => (s.win 2).fModal.parent) = some (some 0) := by decide
    rw [hd] at h
    simpa using h.symm
  have h := (C13_modal_consistency_one_modal_sibling quietWidgets siblingsInTurnCalls s
    hs).2.2 hG 2 0 hen hpar
  refine ⟨hG, ?_⟩
  rw [hs]
  simp [h1, hen, hpar, h]

end DGL
